import Mathlib

/-!
# go-p2pd: the daemon control service (`daemon/daemon_control.go`)

A shallow embedding of the four control operations `CreateNode`, `StartNode`,
`ListenNode` and `StatusNode` of `daemonControlServer`.

* The daemon's `runningNodes` (a `sync.Map`) is an association list from node
  id to node handle; `Load` is the map lookup.
* Everything the control server calls but does not define (the node runtime,
  the node database, `Daemon.RegisterNode`, `Daemon.StartNode`,
  `flushNodeSpec`, request validation, multiaddr and key libraries) is a field
  of `Deps`, acting on an arbitrary world state `W`.
* Every operation returns its result, the daemon state it leaves behind and
  the list of collaborator calls it made, in program order.
-/

namespace P2pd

/-! ## Errors -/

/-- An `error` value as built with `github.com/pkg/errors`: a leaf error
carrying a message (`errors.Errorf`, or any error a collaborator returns), or
a cause annotated with a message (`errors.WithMessage`). -/
inductive GoError where
  | errorf (msg : String)
  | withMessage (cause : GoError) (msg : String)
deriving DecidableEq, Repr

/-- The root cause of an error, as `errors.Cause` finds it. -/
def GoError.Cause : GoError → GoError
  | .errorf msg => .errorf msg
  | .withMessage cause _ => cause.Cause

/-- Whether an error is an annotation of `cause` whose message names both the
operation `op` and the node identity `nodeId`. -/
def GoError.WrapsWith (op nodeId : String) (cause e : GoError) : Prop :=
  ∃ msg, e = .withMessage cause msg ∧ op.data <:+: msg.data ∧ nodeId.data <:+: msg.data

instance instDecidableEqExcept {ε α : Type} [DecidableEq ε] [DecidableEq α] :
    DecidableEq (Except ε α)
  | .ok a, .ok b => if h : a = b then isTrue (by rw [h]) else isFalse (by simp [h])
  | .error a, .error b => if h : a = b then isTrue (by rw [h]) else isFalse (by simp [h])
  | .ok _, .error _ => isFalse (by simp)
  | .error _, .ok _ => isFalse (by simp)

/-! ## Data model -/

/-- A peer identity (`peer.ID`, a byte string). -/
abbrev PeerID := List Nat

/-- A parsed multiaddress (`ma.Multiaddr`), held as its binary form. -/
structure Multiaddr where
  bytes : List Nat
deriving DecidableEq, Repr

/-- A private key (`crypto.PrivKey`). -/
structure PrivKey where
  raw : List Nat
deriving DecidableEq, Repr

/-- A public key (`crypto.PubKey`). -/
structure PubKey where
  raw : List Nat
deriving DecidableEq, Repr

/-- Modelled from the spec: the `node.NodeSpec` record, whose declaration is
not part of the source file: identity, private key material and the ordered
list of listen address strings. -/
structure NodeSpec where
  id : String
  privKey : List Nat
  addrs : List String
deriving DecidableEq, Repr

/-- The two node states reported by `StatusNode`
(`node.NodeSpecState_NODE_SPEC_STATE_STOPPED` / `..._STARTED`). -/
inductive NodeSpecState where
  | NODE_SPEC_STATE_STOPPED
  | NODE_SPEC_STATE_STARTED
deriving DecidableEq, Repr

/-- Modelled from the spec: a live node handle (`*node.Node`, never nil). The
pointer, the node id and the peer id are fixed when the node is built; the
listen addresses and the open/closed status are mutable and live in the world
state. -/
structure Node where
  ptr : Nat
  nodeId : String
  peerId : PeerID
deriving DecidableEq, Repr

/-- The registry `runningNodes` (a `sync.Map` from node id to `*node.Node`). -/
abbrev Registry := List (String × Node)

/-- The `sync.Map.Load` lookup: the handle stored under `key`, if any. -/
def Registry.Load : Registry → String → Option Node
  | [], _ => none
  | (k, nod) :: rest, key => if k = key then some nod else Registry.Load rest key

/-- The number of handles the registry holds under `key`. -/
def Registry.handles (m : Registry) (key : String) : Nat :=
  (m.filter (fun e => decide (e.1 = key))).length

/-- The daemon: its registry of running nodes and the state of everything
behind it (node runtime, node database). -/
structure Daemon (W : Type) where
  runningNodes : Registry
  world : W
deriving DecidableEq, Repr

/-! ## Requests and responses (`control` package) -/

structure CreateNodeRequest where
  nodeId : String
deriving DecidableEq, Repr

structure CreateNodeResponse where
  nodePeerId : String
deriving DecidableEq, Repr

structure StartNodeRequest where
  nodeId : String
deriving DecidableEq, Repr

structure StartNodeResponse where
  nodePeerId : String
  nodeListenAddrs : List String
deriving DecidableEq, Repr

structure ListenNodeRequest where
  nodeId : String
  addr : String
deriving DecidableEq, Repr

structure ListenNodeResponse where
  nodePeerId : String
  nodeListenAddrs : List String
deriving DecidableEq, Repr

structure StatusNodeRequest where
  nodeId : String
deriving DecidableEq, Repr

structure StatusNodeResponse where
  nodePeerId : String
  nodeState : NodeSpecState
  nodeListenAddrs : List String
deriving DecidableEq, Repr

/-! ## Collaborators -/

/-- A call the control server makes to a collaborator. `goFlushNodeSpec` is
the statement `go d.flushNodeSpec(id)` (a new goroutine is started and not
waited for); `flushNodeSpec` is the plain call `d.flushNodeSpec(id)`, which
returns before the caller goes on. -/
inductive Call where
  | newNode (nodeId : String)
  | registerNode (nod : Node)
  | close (nod : Node)
  | getNode (nodeId : String)
  | startNode (spec : NodeSpec)
  | goFlushNodeSpec (nodeId : String)
  | flushNodeSpec (nodeId : String)
  | newMultiaddr (addr : String)
  | addListenAddr (nod : Node) (maddr : Multiaddr)
  | unmarshalPrivKey (spec : NodeSpec)
  | idFromPublicKey (pub : PubKey)
deriving DecidableEq, Repr

/-- The code the control server calls and does not define, over a world state
`W`. Methods of `*Daemon` see and may change the whole daemon; methods of a
node, of the database or of a library see only the world. -/
structure Deps (W : Type) where
  /-- The generated `req.Validate()` of each request type. -/
  validateCreate : CreateNodeRequest → Option GoError
  validateStart : StartNodeRequest → Option GoError
  validateListen : ListenNodeRequest → Option GoError
  validateStatus : StatusNodeRequest → Option GoError
  /-- The runtime constructor `node.NewNode(id, log)`. -/
  newNode : W → String → Except GoError Node × W
  /-- The method `d.RegisterNode(nNode)`. -/
  registerNode : Daemon W → Node → Option GoError × Daemon W
  /-- The method `nNode.Close()`. -/
  close : W → Node → W
  /-- The database read `d.daemonDb.GetNode(id)`; a nil spec is `none`. -/
  getNode : W → String → Except GoError (Option NodeSpec)
  /-- The method `d.Daemon.StartNode(spec)`. -/
  startNode : Daemon W → NodeSpec → Except GoError Node × Daemon W
  /-- The method `d.flushNodeSpec(id)`, run to completion; a value it returns
  is dropped by both callers. -/
  flushNodeSpec : Daemon W → String → Daemon W
  /-- The parser `ma.NewMultiaddr(s)`. -/
  newMultiaddr : String → Except GoError Multiaddr
  /-- The method `nod.AddListenAddr(maddr)`. -/
  addListenAddr : W → Node → Multiaddr → Option GoError × W
  /-- The method `nod.GetListenAddrs()`. -/
  getListenAddrs : W → Node → List Multiaddr
  /-- The method `addr.String()` of a multiaddress. -/
  maString : Multiaddr → String
  /-- The method `spec.UnmarshalPrivKey()`. -/
  unmarshalPrivKey : NodeSpec → Except GoError PrivKey
  /-- The method `privKey.GetPublic()`. -/
  getPublic : PrivKey → PubKey
  /-- The function `peer.IDFromPublicKey(pub)`. -/
  idFromPublicKey : PubKey → Except GoError PeerID
  /-- The method `pid.Pretty()`. -/
  pretty : PeerID → String

/-- Modelled from the spec: the helper `multiAddrsToString`, whose definition
is not part of the source file: it formats an address list as the list of the
addresses in string form ("address lists as canonical strings"). -/
def multiAddrsToString {W : Type} (D : Deps W) (addrs : List Multiaddr) : List String :=
  addrs.map D.maString

/-- What one control operation leaves behind: the `(response, error)` pair it
returns, the daemon state after it, and the collaborator calls it made. -/
structure Outcome (W R : Type) where
  result : Except GoError R
  daemon : Daemon W
  calls : List Call
deriving DecidableEq, Repr

/-! ## The control operations -/

/-- The method `daemonControlServer.CreateNode`. -/
def CreateNode {W : Type} (D : Deps W) (d : Daemon W) (req : CreateNodeRequest) :
    Outcome W CreateNodeResponse :=
  match D.validateCreate req with
  | some err => ⟨.error err, d, []⟩
  | none =>
    match d.runningNodes.Load req.nodeId with
    | some _ => ⟨.error (.errorf ("node already exists: " ++ req.nodeId)), d, []⟩
    | none =>
      match D.newNode d.world req.nodeId with
      | (.error err, w1) => ⟨.error err, ⟨d.runningNodes, w1⟩, [.newNode req.nodeId]⟩
      | (.ok nNode, w1) =>
        match D.registerNode ⟨d.runningNodes, w1⟩ nNode with
        | (some err, d2) =>
          ⟨.error err, ⟨d2.runningNodes, D.close d2.world nNode⟩,
            [.newNode req.nodeId, .registerNode nNode, .close nNode]⟩
        | (none, d2) =>
          ⟨.ok ⟨D.pretty nNode.peerId⟩, d2, [.newNode req.nodeId, .registerNode nNode]⟩

/-- The method `daemonControlServer.StartNode`. -/
def StartNode {W : Type} (D : Deps W) (d : Daemon W) (req : StartNodeRequest) :
    Outcome W StartNodeResponse :=
  match D.validateStart req with
  | some err => ⟨.error err, d, []⟩
  | none =>
    let nodeId := req.nodeId
    match D.getNode d.world nodeId with
    | .error err => ⟨.error err, d, [.getNode nodeId]⟩
    | .ok none => ⟨.error (.errorf ("node id not known: " ++ nodeId)), d, [.getNode nodeId]⟩
    | .ok (some spec) =>
      match D.startNode d spec with
      | (.error err, d1) =>
        ⟨.error (.withMessage err "start node"), d1, [.getNode nodeId, .startNode spec]⟩
      | (.ok nod, d1) =>
        ⟨.ok ⟨D.pretty nod.peerId, multiAddrsToString D (D.getListenAddrs d1.world nod)⟩, d1,
          [.getNode nodeId, .startNode spec, .goFlushNodeSpec nodeId]⟩

/-- The method `daemonControlServer.ListenNode`. -/
def ListenNode {W : Type} (D : Deps W) (d : Daemon W) (req : ListenNodeRequest) :
    Outcome W ListenNodeResponse :=
  match D.validateListen req with
  | some err => ⟨.error err, d, []⟩
  | none =>
    match d.runningNodes.Load req.nodeId with
    | none => ⟨.error (.errorf ("node not running: " ++ req.nodeId)), d, []⟩
    | some nod =>
      match D.newMultiaddr req.addr with
      | .error err => ⟨.error err, d, [.newMultiaddr req.addr]⟩
      | .ok maddr =>
        match D.addListenAddr d.world nod maddr with
        | (some err, w1) =>
          ⟨.error err, ⟨d.runningNodes, w1⟩, [.newMultiaddr req.addr, .addListenAddr nod maddr]⟩
        | (none, w1) =>
          let d2 := D.flushNodeSpec ⟨d.runningNodes, w1⟩ req.nodeId
          ⟨.ok ⟨D.pretty nod.peerId, multiAddrsToString D (D.getListenAddrs d2.world nod)⟩, d2,
            [.newMultiaddr req.addr, .addListenAddr nod maddr, .flushNodeSpec req.nodeId]⟩

/-- The loop of `StatusNode` that fills `listenAddrs`: a slice of
`len(listenAddrsM)` empty strings whose `i`-th cell is then set to the string
form of the `i`-th address. -/
def listenAddrStrings {W : Type} (D : Deps W) (listenAddrsM : List Multiaddr) : List String :=
  listenAddrsM.enum.foldl (fun listenAddrs ia => listenAddrs.set ia.1 (D.maString ia.2))
    (List.replicate listenAddrsM.length "")

/-- The method `daemonControlServer.StatusNode`. -/
def StatusNode {W : Type} (D : Deps W) (d : Daemon W) (req : StatusNodeRequest) :
    Outcome W StatusNodeResponse :=
  match D.validateStatus req with
  | some err => ⟨.error err, d, []⟩
  | none =>
    let runningNode : Option Node :=
      match d.runningNodes.Load req.nodeId with
      | some nod => some nod
      | none => none
    match runningNode with
    | some runningNode =>
      let listenAddrs := listenAddrStrings D (D.getListenAddrs d.world runningNode)
      ⟨.ok ⟨D.pretty runningNode.peerId, .NODE_SPEC_STATE_STARTED, listenAddrs⟩, d, []⟩
    | none =>
      match D.getNode d.world req.nodeId with
      | .error err => ⟨.error err, d, [.getNode req.nodeId]⟩
      | .ok none =>
        ⟨.error (.errorf ("node id not known: " ++ req.nodeId)), d, [.getNode req.nodeId]⟩
      | .ok (some spec) =>
        match D.unmarshalPrivKey spec with
        | .error err => ⟨.error err, d, [.getNode req.nodeId, .unmarshalPrivKey spec]⟩
        | .ok privKey =>
          match D.idFromPublicKey (D.getPublic privKey) with
          | .error err =>
            ⟨.error err, d, [.getNode req.nodeId, .unmarshalPrivKey spec,
              .idFromPublicKey (D.getPublic privKey)]⟩
          | .ok pid =>
            ⟨.ok ⟨D.pretty pid, .NODE_SPEC_STATE_STOPPED, spec.addrs⟩, d,
              [.getNode req.nodeId, .unmarshalPrivKey spec,
                .idFromPublicKey (D.getPublic privKey)]⟩

/-! ## `CreateNode` as a sequence of atomic steps

Several `CreateNode` calls may run at once (one goroutine per request). Between
two accesses to shared state a call is at one of the control points below; one
step performs the next access (the registry lookup, `node.NewNode`,
`RegisterNode`, `Close`) atomically. -/

/-- The control point of a `CreateNode` call in flight. -/
inductive CreatePc where
  /-- Nothing done yet: `req.Validate()` and `runningNodes.Load` come next. -/
  | entry
  /-- The lookup missed: `node.NewNode` comes next. -/
  | afterLoad
  /-- `node.NewNode` returned `nNode`: `RegisterNode` comes next. -/
  | afterNewNode (nNode : Node)
  /-- `RegisterNode` returned `err`: `nNode.Close()` comes next. -/
  | afterRegisterFail (nNode : Node) (err : GoError)
  /-- The call has returned. -/
  | returned (result : Except GoError CreateNodeResponse)
deriving DecidableEq, Repr

/-- A `CreateNode` call in flight: its request, its control point, and the
collaborator calls it has made so far. -/
structure CreateCall where
  req : CreateNodeRequest
  pc : CreatePc
  calls : List Call
deriving DecidableEq, Repr

/-- A call that has just been received. -/
def CreateCall.begin (req : CreateNodeRequest) : CreateCall := ⟨req, .entry, []⟩

/-- Whether the call has returned. -/
def CreateCall.isReturned (c : CreateCall) : Bool :=
  match c.pc with
  | .returned _ => true
  | _ => false

/-- Whether the call has returned a response (and no error). -/
def CreateCall.succeeded (c : CreateCall) : Bool :=
  match c.pc with
  | .returned (.ok _) => true
  | _ => false

/-- One atomic step of a `CreateNode` call on the shared daemon state. -/
def CreateNode.step {W : Type} (D : Deps W) (d : Daemon W) (c : CreateCall) :
    Daemon W × CreateCall :=
  match c.pc with
  | .entry =>
    match D.validateCreate c.req with
    | some err => (d, ⟨c.req, .returned (.error err), c.calls⟩)
    | none =>
      match d.runningNodes.Load c.req.nodeId with
      | some _ =>
        (d, ⟨c.req, .returned (.error (.errorf ("node already exists: " ++ c.req.nodeId))),
          c.calls⟩)
      | none => (d, ⟨c.req, .afterLoad, c.calls⟩)
  | .afterLoad =>
    match D.newNode d.world c.req.nodeId with
    | (.error err, w1) =>
      (⟨d.runningNodes, w1⟩, ⟨c.req, .returned (.error err), c.calls ++ [.newNode c.req.nodeId]⟩)
    | (.ok nNode, w1) =>
      (⟨d.runningNodes, w1⟩, ⟨c.req, .afterNewNode nNode, c.calls ++ [.newNode c.req.nodeId]⟩)
  | .afterNewNode nNode =>
    match D.registerNode d nNode with
    | (some err, d2) =>
      (d2, ⟨c.req, .afterRegisterFail nNode err, c.calls ++ [.registerNode nNode]⟩)
    | (none, d2) =>
      (d2, ⟨c.req, .returned (.ok ⟨D.pretty nNode.peerId⟩), c.calls ++ [.registerNode nNode]⟩)
  | .afterRegisterFail nNode err =>
    (⟨d.runningNodes, D.close d.world nNode⟩,
      ⟨c.req, .returned (.error err), c.calls ++ [.close nNode]⟩)
  | .returned _ => (d, c)

/-- A call run on its own for `n` steps. -/
def CreateNode.steps {W : Type} (D : Deps W) : Nat → Daemon W × CreateCall → Daemon W × CreateCall
  | 0, s => s
  | n + 1, s => CreateNode.steps D n (CreateNode.step D s.1 s.2)

/-- The daemon together with the `CreateNode` calls in flight. -/
abbrev Config (W : Type) := Daemon W × List CreateCall

/-- The call number `i` takes its next step (nothing happens when there is no
such call). -/
def stepAt {W : Type} (D : Deps W) (cfg : Config W) (i : Nat) : Config W :=
  match cfg.2[i]? with
  | none => cfg
  | some c => ((CreateNode.step D cfg.1 c).1, cfg.2.set i (CreateNode.step D cfg.1 c).2)

/-- An interleaving: the calls take their steps in the order the schedule
names them. -/
def runSchedule {W : Type} (D : Deps W) (cfg : Config W) (schedule : List Nat) : Config W :=
  schedule.foldl (stepAt D) cfg

/-- Modelled from the spec: the registry's insert-if-absent `TryRegister`
behind `Daemon.RegisterNode`, whose definition is not part of the source file:
it inserts the handle under its node id only if the id is absent, and reports
the conflict, changing nothing, if the id is present. -/
def tryRegister {W : Type} (d : Daemon W) (nod : Node) : Option GoError × Daemon W :=
  match d.runningNodes.Load nod.nodeId with
  | some _ => (some (.errorf ("node already exists: " ++ nod.nodeId)), d)
  | none => (none, ⟨(nod.nodeId, nod) :: d.runningNodes, d.world⟩)

/-- Modelled from the spec: the method `Daemon.StartNode(spec)`, which the
source file does not define: it "asks the Node Runtime to
materialize a live NodeHandle from the stored key material and prior listen
addresses, registers it in the Registry". The handle carries the id of the
spec and the peer identity derived from the stored key; `materialize` is the
runtime building the node and gives its pointer; a conflict in the registry is
reported and changes nothing. -/
def startNodeFromSpec {W : Type} (unmarshalPrivKey : NodeSpec → Except GoError PrivKey)
    (getPublic : PrivKey → PubKey) (idFromPublicKey : PubKey → Except GoError PeerID)
    (materialize : W → NodeSpec → PrivKey → Nat × W) (d : Daemon W) (spec : NodeSpec) :
    Except GoError Node × Daemon W :=
  match unmarshalPrivKey spec with
  | .error err => (.error err, d)
  | .ok privKey =>
    match idFromPublicKey (getPublic privKey) with
    | .error err => (.error err, d)
    | .ok pid =>
      match tryRegister ⟨d.runningNodes, (materialize d.world spec privKey).2⟩
          ⟨(materialize d.world spec privKey).1, spec.id, pid⟩ with
      | (some err, _) => (.error err, d)
      | (none, d1) => (.ok ⟨(materialize d.world spec privKey).1, spec.id, pid⟩, d1)

/-! ## A concrete world

A small executable instance of the collaborators, used to run the operations
on concrete inputs. -/

/-- The mutable part of a node of the concrete runtime. -/
structure SimNode where
  ptr : Nat
  privKey : List Nat
  listenAddrs : List Multiaddr
  closed : Nat
deriving DecidableEq, Repr

/-- The concrete world: whether the runtime can build nodes, the nodes built
so far, and the records of the node database. -/
structure SimWorld where
  runtimeUp : Bool
  nodes : List SimNode
  store : List NodeSpec
deriving DecidableEq, Repr

/-- Request validation of the concrete world: the node id must not be empty. -/
def simValidate (nodeId : String) : Option GoError :=
  if nodeId = "" then some (.errorf "invalid NodeId: value length must be at least 1") else none

/-- Key decoding of the concrete world: the key material must not be empty. -/
def simUnmarshalPrivKey (spec : NodeSpec) : Except GoError PrivKey :=
  if spec.privKey = [] then .error (.errorf "empty private key") else .ok ⟨spec.privKey⟩

/-- The public half of a key in the concrete world. -/
def simGetPublic (k : PrivKey) : PubKey := ⟨k.raw.reverse⟩

/-- Peer identity derivation of the concrete world. -/
def simIDFromPublicKey (pub : PubKey) : Except GoError PeerID :=
  if pub.raw = [] then .error (.errorf "empty public key") else .ok (18 :: 32 :: pub.raw)

/-- The textual encoding of a peer id in the concrete world. -/
def simPretty (pid : PeerID) : String := String.mk (pid.map (fun b => Char.ofNat (b % 26 + 97)))

/-- The peer id that belongs to a key in the concrete world. -/
def simPeerOfKey (k : PrivKey) : PeerID := 18 :: 32 :: (simGetPublic k).raw

/-- Address parsing of the concrete world: an address starts with a slash. -/
def simNewMultiaddr (s : String) : Except GoError Multiaddr :=
  match s.toList with
  | '/' :: _ => .ok ⟨s.toList.map Char.toNat⟩
  | _ => .error (.errorf "invalid multiaddr, must begin with /")

/-- The string form of an address in the concrete world. -/
def simMaString (m : Multiaddr) : String := String.mk (m.bytes.map Char.ofNat)

/-- The key the concrete runtime generates for a new node. -/
def simGenKey (nodeId : String) : List Nat := 1 :: nodeId.toList.map Char.toNat

/-- Modelled from the spec: the runtime capability
`CreateNodeInstance(id) -> (handle, peerId, error)`: a new node with a fresh
pointer, a generated key and no listen address, or an error. -/
def simNewNode (w : SimWorld) (nodeId : String) : Except GoError Node × SimWorld :=
  if w.runtimeUp then
    (.ok ⟨w.nodes.length, nodeId, simPeerOfKey ⟨simGenKey nodeId⟩⟩,
      { w with nodes := (w.nodes ++ [⟨w.nodes.length, simGenKey nodeId, [], 0⟩]) })
  else (.error (.errorf "node runtime unavailable"), w)

/-- Modelled from the spec: `handle.Close()`. -/
def simClose (w : SimWorld) (nod : Node) : SimWorld :=
  { w with nodes := (w.nodes.map
      (fun s => if s.ptr = nod.ptr then { s with closed := s.closed + 1 } else s)) }

/-- Modelled from the spec: the store read `Get(id) -> (spec, error)`. -/
def simGetNode (w : SimWorld) (nodeId : String) : Except GoError (Option NodeSpec) :=
  .ok (w.store.find? (fun s => decide (s.id = nodeId)))

/-- Modelled from the spec: `handle.ListenAddresses()`. -/
def simGetListenAddrs (w : SimWorld) (nod : Node) : List Multiaddr :=
  match w.nodes.find? (fun s => decide (s.ptr = nod.ptr)) with
  | some s => s.listenAddrs
  | none => []

/-- Modelled from the spec: `handle.AddListenAddress(addr) -> error`: the
address is appended to the node's listen addresses; a closed node and an
address already listened on are refused. -/
def simAddListenAddr (w : SimWorld) (nod : Node) (maddr : Multiaddr) : Option GoError × SimWorld :=
  match w.nodes.find? (fun s => decide (s.ptr = nod.ptr)) with
  | none => (some (.errorf "node closed"), w)
  | some s =>
    if s.closed ≠ 0 then (some (.errorf "node closed"), w)
    else if maddr ∈ s.listenAddrs then (some (.errorf "address already in use"), w)
    else
      (none, { w with nodes := (w.nodes.map
        (fun s => if s.ptr = nod.ptr then { s with listenAddrs := s.listenAddrs ++ [maddr] }
          else s)) })

/-- The concrete runtime building a node from a stored spec: a fresh pointer,
the stored key and the stored listen addresses. -/
def simMaterialize (w : SimWorld) (spec : NodeSpec) (_privKey : PrivKey) : Nat × SimWorld :=
  (w.nodes.length, { w with nodes := (w.nodes ++
    [⟨w.nodes.length, spec.privKey,
      spec.addrs.filterMap (fun a => (simNewMultiaddr a).toOption), 0⟩]) })

/-- The method `Daemon.StartNode(spec)` of the concrete world. -/
def simStartNode (d : Daemon SimWorld) (spec : NodeSpec) : Except GoError Node × Daemon SimWorld :=
  startNodeFromSpec simUnmarshalPrivKey simGetPublic simIDFromPublicKey simMaterialize d spec

/-- Modelled from the spec: the write-back `flushNodeSpec(id)`: the record of
a running node is replaced in the store by its current key and listen
addresses. -/
def simFlushNodeSpec (d : Daemon SimWorld) (nodeId : String) : Daemon SimWorld :=
  match d.runningNodes.Load nodeId with
  | none => d
  | some nod =>
    match d.world.nodes.find? (fun s => decide (s.ptr = nod.ptr)) with
    | none => d
    | some s =>
      ⟨d.runningNodes, { d.world with store :=
        (⟨nodeId, s.privKey, s.listenAddrs.map simMaString⟩ ::
          d.world.store.filter (fun r => decide (r.id ≠ nodeId))) }⟩

/-- The collaborators of the concrete world. -/
def simDeps : Deps SimWorld where
  validateCreate := fun req => simValidate req.nodeId
  validateStart := fun req => simValidate req.nodeId
  validateListen := fun req => simValidate req.nodeId
  validateStatus := fun req => simValidate req.nodeId
  newNode := simNewNode
  registerNode := tryRegister
  close := simClose
  getNode := simGetNode
  startNode := simStartNode
  flushNodeSpec := simFlushNodeSpec
  newMultiaddr := simNewMultiaddr
  addListenAddr := simAddListenAddr
  getListenAddrs := simGetListenAddrs
  maString := simMaString
  unmarshalPrivKey := simUnmarshalPrivKey
  getPublic := simGetPublic
  idFromPublicKey := simIDFromPublicKey
  pretty := simPretty

/-- A daemon that has just started: no running node, an empty database. -/
def simFresh : Daemon SimWorld := ⟨[], ⟨true, [], []⟩⟩

/-- A daemon that has just started and whose node runtime fails. -/
def simDown : Daemon SimWorld := ⟨[], ⟨false, [], []⟩⟩

/-- A daemon whose store holds a spec for `"b"` and that runs no node. -/
def simStoppedB : Daemon SimWorld :=
  ⟨[], ⟨true, [], [⟨"b", [1, 98], ["/ip4/1.2.3.4/tcp/1"]⟩]⟩⟩

/-- A daemon whose store holds a spec for `"c"` with empty key material and
that runs no node. -/
def simBadKey : Daemon SimWorld :=
  ⟨[], ⟨true, [], [⟨"c", [], ["/ip4/1.2.3.4/tcp/1"]⟩]⟩⟩

/-! ## Invariant of concurrent `CreateNode` calls for one id -/

/-- What holds of a `CreateNode` call for the id `x` at each control point,
when the registry was `reg0` before any of the calls started and is `reg` now:
the collaborator calls made so far, and what the call has seen of the
registry. -/
def CreateCall.WF {W : Type} (D : Deps W) (x : String) (reg0 reg : Registry)
    (c : CreateCall) : Prop :=
  c.req = ⟨x⟩ ∧
  match c.pc with
  | .entry => c.calls = []
  | .afterLoad => c.calls = []
  | .afterNewNode n => c.calls = [.newNode x] ∧ n.nodeId = x
  | .afterRegisterFail n err =>
    c.calls = [.newNode x, .registerNode n] ∧
      err = .errorf ("node already exists: " ++ x) ∧ reg.Load x ≠ none
  | .returned (.error e) =>
    (c.calls = [] ∧ e = .errorf ("node already exists: " ++ x) ∧ reg.Load x ≠ none) ∨
    (c.calls = [.newNode x] ∧ ∃ w w1, D.newNode w x = (.error e, w1)) ∨
    (∃ n, c.calls = [.newNode x, .registerNode n, .close n] ∧
      e = .errorf ("node already exists: " ++ x) ∧ reg.Load x ≠ none)
  | .returned (.ok r) =>
    ∃ n, c.calls = [.newNode x, .registerNode n] ∧ r = ⟨D.pretty n.peerId⟩ ∧
      reg = (x, n) :: reg0

/-- The invariant of a set of concurrent `CreateNode` calls for the id `x`
started on a registry `reg0` that does not hold `x`: every call is well formed,
at most one call has succeeded, and the registry is `reg0`, or `reg0` with the
handle of the call that succeeded. -/
structure CreateInv {W : Type} (D : Deps W) (x : String) (reg0 : Registry)
    (cfg : Config W) : Prop where
  wf : ∀ c ∈ cfg.2, c.WF D x reg0 cfg.1.runningNodes
  uniq : ∀ (i j : Nat) (ci cj : CreateCall), cfg.2[i]? = some ci → cfg.2[j]? = some cj →
    ci.succeeded = true → cj.succeeded = true → i = j
  reg : cfg.1.runningNodes = reg0 ∨
    ∃ (n : Node) (i : Nat) (ci : CreateCall), cfg.1.runningNodes = (x, n) :: reg0 ∧
      cfg.2[i]? = some ci ∧ ci.succeeded = true



/-- The state reached when `K` calls `CreateNode(x)` are received by the daemon
`d` and take their steps in the order of the schedule. -/
def createRace {W : Type} (D : Deps W) (d : Daemon W) (x : String) (K : Nat)
    (schedule : List Nat) : Config W :=
  runSchedule D (d, List.replicate K (CreateCall.begin ⟨x⟩)) schedule



/-- The daemon in the middle of a race of two `CreateNode("x")` calls: both
calls have passed the lookup and built their instance, and the first call has
registered its handle. -/
def simRaceLost : Daemon SimWorld :=
  (createRace simDeps simFresh "x" 2 [0, 1, 0, 1, 0]).1

/-- The number of steps a `CreateNode` call has left at most. -/
def CreatePc.remaining : CreatePc → Nat
  | .entry => 4
  | .afterLoad => 3
  | .afterNewNode _ => 2
  | .afterRegisterFail _ _ => 1
  | .returned _ => 0

/-! # Theorems -/

/-! ## Lemmas on the registry and on the address loop -/

theorem foldl_set_enumFrom (f : Multiaddr → String) :
    ∀ (l : List Multiaddr) (k : Nat) (acc : List String), acc.length = k + l.length →
      (l.enumFrom k).foldl (fun listenAddrs ia => listenAddrs.set ia.1 (f ia.2)) acc
        = acc.take k ++ l.map f := by
  intro l
  induction l with
  | nil =>
    intro k acc hlen
    simp at hlen
    simp [← hlen]
  | cons a t ih =>
    intro k acc hlen
    simp only [List.length_cons] at hlen
    rw [List.enumFrom_cons, List.foldl_cons, ih (k + 1) (acc.set k (f a)) (by simp; omega)]
    have hk : k < acc.length := by omega
    rw [List.take_succ, List.getElem?_set_self hk, List.set_eq_take_append_cons_drop, if_pos hk,
      List.take_append_of_le_length (by simp; omega)]
    simp

/-- The loop of `StatusNode` computes the string form of every address, in
order. -/
theorem listenAddrStrings_eq_map {W : Type} (D : Deps W) (l : List Multiaddr) :
    listenAddrStrings D l = l.map D.maString := by
  unfold listenAddrStrings List.enum
  rw [foldl_set_enumFrom D.maString l 0 _ (by simp)]
  simp

/-- C1: when the registry already holds a handle for the requested id, a valid
`CreateNode` fails with "node already exists", leaves the daemon (registry and
world) exactly as it was, so the same handle is still the one stored under the
id and the number of handles under the id is unchanged, and calls no
collaborator (neither `node.NewNode` nor `RegisterNode`). Hence, when a first
`CreateNode` succeeds and has registered its handle, a second `CreateNode` for
the same id fails with "node already exists" and changes nothing. -/
theorem CreateNode_already_exists {W : Type} (D : Deps W) (d : Daemon W)
    (req : CreateNodeRequest) (hvalid : D.validateCreate req = none) :
    (∀ h : Node, d.runningNodes.Load req.nodeId = some h →
      CreateNode D d req = ⟨.error (.errorf ("node already exists: " ++ req.nodeId)), d, []⟩ ∧
      (CreateNode D d req).daemon.runningNodes.Load req.nodeId = some h ∧
      (CreateNode D d req).daemon.runningNodes.handles req.nodeId
        = d.runningNodes.handles req.nodeId ∧
      Call.newNode req.nodeId ∉ (CreateNode D d req).calls ∧
      ∀ nod : Node, Call.registerNode nod ∉ (CreateNode D d req).calls) ∧
    (∀ resp : CreateNodeResponse, (CreateNode D d req).result = .ok resp →
      (CreateNode D d req).daemon.runningNodes.Load req.nodeId ≠ none →
      CreateNode D (CreateNode D d req).daemon req
        = ⟨.error (.errorf ("node already exists: " ++ req.nodeId)),
            (CreateNode D d req).daemon, []⟩) := by
  have key : ∀ (d0 : Daemon W) (h : Node), d0.runningNodes.Load req.nodeId = some h →
      CreateNode D d0 req
        = ⟨.error (.errorf ("node already exists: " ++ req.nodeId)), d0, []⟩ := by
    intro d0 h hheld
    simp [CreateNode, hvalid, hheld]
  refine ⟨?_, ?_⟩
  · intro h hheld
    rw [key d h hheld]
    exact ⟨rfl, hheld, rfl, by simp, by simp⟩
  · intro resp _ hreg
    cases hl : (CreateNode D d req).daemon.runningNodes.Load req.nodeId with
    | none => exact absurd hl hreg
    | some h => exact key _ h hl

/-- C1 on the concrete world: the first `CreateNode("a")` on a fresh daemon
succeeds and registers its handle, and the second fails with "node already
exists", leaving the single handle in place. -/
theorem CreateNode_already_exists_witness :
    simDeps.validateCreate ⟨"a"⟩ = none ∧
    (CreateNode simDeps simFresh ⟨"a"⟩).result = .ok ⟨"sgtb"⟩ ∧
    CreateNode simDeps (CreateNode simDeps simFresh ⟨"a"⟩).daemon ⟨"a"⟩
      = ⟨.error (.errorf "node already exists: a"),
          (CreateNode simDeps simFresh ⟨"a"⟩).daemon, []⟩ ∧
    (CreateNode simDeps (CreateNode simDeps simFresh ⟨"a"⟩).daemon ⟨"a"⟩).daemon.runningNodes.handles
      "a" = 1 :=
  ⟨rfl, by decide,
    (CreateNode_already_exists simDeps simFresh ⟨"a"⟩ rfl).2 ⟨"sgtb"⟩ (by decide) (by decide),
    by decide⟩

/-- C2: when the registry holds a handle for the requested id, a valid
`StatusNode` succeeds with state `STARTED`, the textual form of the handle's
peer id, and one string per live listen address of the handle, in the same
order (the `i`-th string is the string form of the `i`-th address); the daemon
is unchanged and no collaborator is called, so the store is not consulted. A
handle with no listen address gives the empty list. -/
theorem StatusNode_running {W : Type} (D : Deps W) (d : Daemon W) (req : StatusNodeRequest)
    (nod : Node) (hvalid : D.validateStatus req = none)
    (hheld : d.runningNodes.Load req.nodeId = some nod) :
    ∃ addrs : List String,
      StatusNode D d req
        = ⟨.ok ⟨D.pretty nod.peerId, .NODE_SPEC_STATE_STARTED, addrs⟩, d, []⟩ ∧
      addrs.length = (D.getListenAddrs d.world nod).length ∧
      (∀ i : Nat, addrs[i]? = (D.getListenAddrs d.world nod)[i]?.map D.maString) ∧
      (D.getListenAddrs d.world nod = [] → addrs = []) := by
  refine ⟨(D.getListenAddrs d.world nod).map D.maString, ?_, by simp, ?_, ?_⟩
  · simp [StatusNode, hvalid, hheld, listenAddrStrings_eq_map]
  · intro i
    simp
  · intro h
    simp [h]

/-- C2 on the concrete world: right after `CreateNode("a")`, `StatusNode("a")`
reports `STARTED` with an empty address list and calls nothing. -/
theorem StatusNode_running_witness :
    ∃ addrs : List String,
      StatusNode simDeps (CreateNode simDeps simFresh ⟨"a"⟩).daemon ⟨"a"⟩
        = ⟨.ok ⟨simDeps.pretty [18, 32, 97, 1], .NODE_SPEC_STATE_STARTED, addrs⟩,
            (CreateNode simDeps simFresh ⟨"a"⟩).daemon, []⟩ ∧
      addrs.length = 0 :=
  match StatusNode_running simDeps (CreateNode simDeps simFresh ⟨"a"⟩).daemon ⟨"a"⟩
      ⟨0, "a", [18, 32, 97, 1]⟩ rfl (by decide) with
  | ⟨addrs, h1, h2, _, _⟩ => ⟨addrs, h1, h2⟩

/-- C3 (amended): when the registry holds no handle for the id and the store
holds a spec for it, a valid `StatusNode` leaves the daemon (registry and
world, the store included) unchanged and builds, registers or starts no node,
whatever it returns. When the stored private key unmarshals and yields a peer
identity, it returns state `STOPPED`, exactly the stored address list, and the
textual form of the identity derived from the stored private key alone, its
only calls being the store read and the two key functions; and when
`Daemon.StartNode` builds the handle from the stored key as the spec describes
it, every response of `StartNode` for that spec reports the same peer identity,
and `StartNode` does respond when the spec is stored under its own id. When the
key does not unmarshal, or yields no peer identity, `StatusNode` returns that
error. -/
theorem StatusNode_stopped {W : Type} (D : Deps W) (d : Daemon W) (req : StatusNodeRequest)
    (spec : NodeSpec)
    (hvalid : D.validateStatus req = none)
    (hmiss : d.runningNodes.Load req.nodeId = none)
    (hspec : D.getNode d.world req.nodeId = .ok (some spec)) :
    (StatusNode D d req).daemon = d ∧
    (∀ s : NodeSpec, Call.startNode s ∉ (StatusNode D d req).calls) ∧
    (∀ id : String, Call.newNode id ∉ (StatusNode D d req).calls) ∧
    (∀ nod : Node, Call.registerNode nod ∉ (StatusNode D d req).calls) ∧
    (∀ (privKey : PrivKey) (pid : PeerID), D.unmarshalPrivKey spec = .ok privKey →
      D.idFromPublicKey (D.getPublic privKey) = .ok pid →
      StatusNode D d req
        = ⟨.ok ⟨D.pretty pid, .NODE_SPEC_STATE_STOPPED, spec.addrs⟩, d,
            [.getNode req.nodeId, .unmarshalPrivKey spec,
              .idFromPublicKey (D.getPublic privKey)]⟩ ∧
      ∀ materialize : W → NodeSpec → PrivKey → Nat × W,
        (∀ (d0 : Daemon W) (s : NodeSpec), D.startNode d0 s
          = startNodeFromSpec D.unmarshalPrivKey D.getPublic D.idFromPublicKey materialize d0 s) →
        D.validateStart ⟨req.nodeId⟩ = none →
        (∀ started : StartNodeResponse, (StartNode D d ⟨req.nodeId⟩).result = .ok started →
          ∃ status : StatusNodeResponse, (StatusNode D d req).result = .ok status ∧
            status.nodePeerId = started.nodePeerId) ∧
        (spec.id = req.nodeId →
          ∃ started : StartNodeResponse, (StartNode D d ⟨req.nodeId⟩).result = .ok started ∧
            started.nodePeerId = D.pretty pid)) ∧
    (∀ err : GoError, D.unmarshalPrivKey spec = .error err →
      (StatusNode D d req).result = .error err) ∧
    (∀ (privKey : PrivKey) (err : GoError), D.unmarshalPrivKey spec = .ok privKey →
      D.idFromPublicKey (D.getPublic privKey) = .error err →
      (StatusNode D d req).result = .error err) := by
  have hframe : (StatusNode D d req).daemon = d ∧
      (∀ s : NodeSpec, Call.startNode s ∉ (StatusNode D d req).calls) ∧
      (∀ id : String, Call.newNode id ∉ (StatusNode D d req).calls) ∧
      (∀ nod : Node, Call.registerNode nod ∉ (StatusNode D d req).calls) := by
    cases hk : D.unmarshalPrivKey spec with
    | error err => simp [StatusNode, hvalid, hmiss, hspec, hk]
    | ok privKey =>
      cases hp : D.idFromPublicKey (D.getPublic privKey) with
      | error err => simp [StatusNode, hvalid, hmiss, hspec, hk, hp]
      | ok pid => simp [StatusNode, hvalid, hmiss, hspec, hk, hp]
  refine ⟨hframe.1, hframe.2.1, hframe.2.2.1, hframe.2.2.2, ?_, ?_, ?_⟩
  · intro privKey pid hkey hpid
    have h : StatusNode D d req
        = ⟨.ok ⟨D.pretty pid, .NODE_SPEC_STATE_STOPPED, spec.addrs⟩, d,
            [.getNode req.nodeId, .unmarshalPrivKey spec,
              .idFromPublicKey (D.getPublic privKey)]⟩ := by
      simp [StatusNode, hvalid, hmiss, hspec, hkey, hpid]
    refine ⟨h, ?_⟩
    intro materialize hstart hv
    cases hl : d.runningNodes.Load spec.id with
    | some other =>
      have hs : D.startNode d spec
          = (.error (.errorf ("node already exists: " ++ spec.id)), d) := by
        rw [hstart]
        simp [startNodeFromSpec, hkey, hpid, tryRegister, hl]
      refine ⟨?_, ?_⟩
      · intro started hres
        simp [StartNode, hv, hspec, hs] at hres
      · intro hid
        rw [hid, hmiss] at hl
        exact absurd hl (by simp)
    | none =>
      have hs : D.startNode d spec
          = (.ok ⟨(materialize d.world spec privKey).1, spec.id, pid⟩,
              ⟨(spec.id, ⟨(materialize d.world spec privKey).1, spec.id, pid⟩) ::
                d.runningNodes, (materialize d.world spec privKey).2⟩) := by
        rw [hstart]
        simp [startNodeFromSpec, hkey, hpid, tryRegister, hl]
      refine ⟨?_, ?_⟩
      · intro started hres
        refine ⟨⟨D.pretty pid, .NODE_SPEC_STATE_STOPPED, spec.addrs⟩, by rw [h], ?_⟩
        simp [StartNode, hv, hspec, hs] at hres
        rw [← hres]
      · intro _
        refine ⟨⟨D.pretty pid, multiAddrsToString D
          (D.getListenAddrs (materialize d.world spec privKey).2
            ⟨(materialize d.world spec privKey).1, spec.id, pid⟩)⟩, ?_, rfl⟩
        simp [StartNode, hv, hspec, hs]
  · intro err hk
    simp [StatusNode, hvalid, hmiss, hspec, hk]
  · intro privKey err hk hp
    simp [StatusNode, hvalid, hmiss, hspec, hk, hp]

/-- C3 (amended) on the concrete world: with a spec stored for `"b"` and no
running node, `StatusNode("b")` reports `STOPPED`, the stored address and the
peer id `"sgub"`, which is the peer id `StartNode("b")` reports. -/
theorem StatusNode_stopped_witness :
    StatusNode simDeps simStoppedB ⟨"b"⟩
      = ⟨.ok ⟨"sgub", .NODE_SPEC_STATE_STOPPED, ["/ip4/1.2.3.4/tcp/1"]⟩, simStoppedB,
          [.getNode "b", .unmarshalPrivKey ⟨"b", [1, 98], ["/ip4/1.2.3.4/tcp/1"]⟩,
            .idFromPublicKey ⟨[98, 1]⟩]⟩ ∧
    ∃ started : StartNodeResponse,
      (StartNode simDeps simStoppedB ⟨"b"⟩).result = .ok started ∧
      started.nodePeerId = "sgub" :=
  ⟨((StatusNode_stopped simDeps simStoppedB ⟨"b"⟩ ⟨"b", [1, 98], ["/ip4/1.2.3.4/tcp/1"]⟩
      rfl rfl rfl).2.2.2.2.1 ⟨[1, 98]⟩ [18, 32, 98, 1] rfl rfl).1,
    (((StatusNode_stopped simDeps simStoppedB ⟨"b"⟩ ⟨"b", [1, 98], ["/ip4/1.2.3.4/tcp/1"]⟩
      rfl rfl rfl).2.2.2.2.1 ⟨[1, 98]⟩ [18, 32, 98, 1] rfl rfl).2 simMaterialize
      (fun _ _ => rfl) rfl).2 rfl⟩

/-- C3 as stated fails: the store holds a spec for `"c"` whose key material is
empty and the registry holds no handle for `"c"`; the valid `StatusNode("c")`
returns the error of the key unmarshalling and no response, so it does not
report state `STOPPED`. -/
theorem StatusNode_stored_spec_key_error :
    simDeps.validateStatus ⟨"c"⟩ = none ∧
    simBadKey.runningNodes.Load "c" = none ∧
    simDeps.getNode simBadKey.world "c" = .ok (some ⟨"c", [], ["/ip4/1.2.3.4/tcp/1"]⟩) ∧
    (StatusNode simDeps simBadKey ⟨"c"⟩).result = .error (.errorf "empty private key") ∧
    ¬ ∃ resp : StatusNodeResponse, (StatusNode simDeps simBadKey ⟨"c"⟩).result = .ok resp := by
  refine ⟨rfl, rfl, rfl, rfl, ?_⟩
  rintro ⟨resp, h⟩
  have hres : (StatusNode simDeps simBadKey ⟨"c"⟩).result
      = .error (.errorf "empty private key") := rfl
  rw [hres] at h
  exact Except.noConfusion h

/-- C4: for an id that was never created (the store returns no spec and no
error, the registry holds no handle), valid `StatusNode` and `StartNode`
requests both fail with "node id not known"; each leaves the daemon (registry
and world) unchanged and its only call is the store read, so no node is started
and no write-back is scheduled. -/
theorem never_created_not_known {W : Type} (D : Deps W) (d : Daemon W) (nodeId : String)
    (hvalidStatus : D.validateStatus ⟨nodeId⟩ = none)
    (hvalidStart : D.validateStart ⟨nodeId⟩ = none)
    (hmiss : d.runningNodes.Load nodeId = none)
    (hnone : D.getNode d.world nodeId = .ok none) :
    StatusNode D d ⟨nodeId⟩
      = ⟨.error (.errorf ("node id not known: " ++ nodeId)), d, [.getNode nodeId]⟩ ∧
    StartNode D d ⟨nodeId⟩
      = ⟨.error (.errorf ("node id not known: " ++ nodeId)), d, [.getNode nodeId]⟩ := by
  constructor
  · simp [StatusNode, hvalidStatus, hmiss, hnone]
  · simp [StartNode, hvalidStart, hnone]

/-- C4 on the concrete world: on a fresh daemon `StatusNode("ghost")` and
`StartNode("ghost")` fail with "node id not known: ghost". -/
theorem never_created_not_known_witness :
    (StatusNode simDeps simFresh ⟨"ghost"⟩).result
      = .error (.errorf "node id not known: ghost") ∧
    (StartNode simDeps simFresh ⟨"ghost"⟩).result
      = .error (.errorf "node id not known: ghost") :=
  ⟨congrArg Outcome.result (never_created_not_known simDeps simFresh "ghost" rfl rfl rfl rfl).1,
    congrArg Outcome.result (never_created_not_known simDeps simFresh "ghost" rfl rfl rfl rfl).2⟩

/-- C5: for an id the registry does not hold and any address string, a valid
`ListenNode` fails with "node not running", leaves the daemon unchanged and
calls no collaborator: the store is not read (so a stored spec makes no
difference), the address is not parsed, the runtime is not called and no
write-back is issued. -/
theorem ListenNode_not_running {W : Type} (D : Deps W) (d : Daemon W) (req : ListenNodeRequest)
    (hvalid : D.validateListen req = none)
    (hmiss : d.runningNodes.Load req.nodeId = none) :
    ListenNode D d req = ⟨.error (.errorf ("node not running: " ++ req.nodeId)), d, []⟩ := by
  simp [ListenNode, hvalid, hmiss]

/-- C5 on the concrete world: with a spec stored for `"b"` but no running
node, `ListenNode("b", ...)` fails with "node not running: b", for a well-formed
and for a malformed address alike. -/
theorem ListenNode_not_running_witness :
    ListenNode simDeps simStoppedB ⟨"b", "/ip4/127.0.0.1/tcp/4001"⟩
      = ⟨.error (.errorf "node not running: b"), simStoppedB, []⟩ ∧
    ListenNode simDeps simStoppedB ⟨"b", "not an address"⟩
      = ⟨.error (.errorf "node not running: b"), simStoppedB, []⟩ :=
  ⟨ListenNode_not_running simDeps simStoppedB ⟨"b", "/ip4/127.0.0.1/tcp/4001"⟩ rfl rfl,
    ListenNode_not_running simDeps simStoppedB ⟨"b", "not an address"⟩ rfl rfl⟩

/-- In the concrete world, an accepted address is appended to the node's
listen addresses. -/
theorem simAddListenAddr_appends (w : SimWorld) (nod : Node) (m : Multiaddr) (w1 : SimWorld)
    (h : simAddListenAddr w nod m = (none, w1)) :
    simGetListenAddrs w1 nod = simGetListenAddrs w nod ++ [m] := by
  unfold simAddListenAddr at h
  cases hf : w.nodes.find? (fun s => decide (s.ptr = nod.ptr)) with
  | none => simp [hf] at h
  | some s =>
    simp only [hf] at h
    split at h
    · simp at h
    · split at h
      · simp at h
      · simp only [Prod.mk.injEq, true_and] at h
        have hs : s.ptr = nod.ptr := by
          have := List.find?_some hf
          simpa using this
        subst h
        simp only [simGetListenAddrs, hf, List.find?_map]
        have hcomp : ((fun s : SimNode => decide (s.ptr = nod.ptr)) ∘
            (fun s : SimNode => if s.ptr = nod.ptr then
              { s with listenAddrs := s.listenAddrs ++ [m] } else s))
            = (fun s : SimNode => decide (s.ptr = nod.ptr)) := by
          funext x
          by_cases hx : x.ptr = nod.ptr <;> simp [hx]
        rw [hcomp, hf]
        simp [hs]

/-- In the concrete world, the write-back touches neither the registry nor the
nodes. -/
theorem simFlushNodeSpec_frame (d : Daemon SimWorld) (id : String) (nod : Node) :
    simGetListenAddrs (simFlushNodeSpec d id).world nod = simGetListenAddrs d.world nod ∧
    (simFlushNodeSpec d id).runningNodes = d.runningNodes := by
  unfold simFlushNodeSpec
  split
  · exact ⟨rfl, rfl⟩
  · split
    · exact ⟨rfl, rfl⟩
    · exact ⟨rfl, rfl⟩

/-- C6: let `AddListenAddr` append the address it accepts to the handle's
listen addresses and let the write-back leave the registry and the handles'
listen addresses alone. Then for a running node whose handle has listen
addresses `L` and a parseable address that the handle accepts, a valid
`ListenNode` returns the textual form of the handle's peer id and the string
forms of `L` followed by the string form of the new address; the handle stays
registered and now has `L` followed by the new address. So on a handle with no
listen address `ListenNode` with a first address returns exactly that one, and
a following `ListenNode` with a second address returns both, in the order
added. -/
theorem ListenNode_appends {W : Type} (D : Deps W)
    (happ : ∀ (w : W) (nod : Node) (m : Multiaddr) (w1 : W),
      D.addListenAddr w nod m = (none, w1) →
        D.getListenAddrs w1 nod = D.getListenAddrs w nod ++ [m])
    (hflush : ∀ (d : Daemon W) (id : String) (nod : Node),
      D.getListenAddrs (D.flushNodeSpec d id).world nod = D.getListenAddrs d.world nod ∧
      (D.flushNodeSpec d id).runningNodes = d.runningNodes) :
    (∀ (d : Daemon W) (req : ListenNodeRequest) (nod : Node) (maddr : Multiaddr) (w1 : W),
      D.validateListen req = none →
      d.runningNodes.Load req.nodeId = some nod →
      D.newMultiaddr req.addr = .ok maddr →
      D.addListenAddr d.world nod maddr = (none, w1) →
        (ListenNode D d req).result
          = .ok ⟨D.pretty nod.peerId,
              (D.getListenAddrs d.world nod).map D.maString ++ [D.maString maddr]⟩ ∧
        (ListenNode D d req).daemon.runningNodes = d.runningNodes ∧
        D.getListenAddrs (ListenNode D d req).daemon.world nod
          = D.getListenAddrs d.world nod ++ [maddr]) ∧
    (∀ (d : Daemon W) (nodeId a1 a2 : String) (nod : Node) (m1 m2 : Multiaddr) (w1 w2 : W),
      D.validateListen ⟨nodeId, a1⟩ = none →
      D.validateListen ⟨nodeId, a2⟩ = none →
      d.runningNodes.Load nodeId = some nod →
      D.getListenAddrs d.world nod = [] →
      D.newMultiaddr a1 = .ok m1 →
      D.newMultiaddr a2 = .ok m2 →
      D.addListenAddr d.world nod m1 = (none, w1) →
      D.addListenAddr (ListenNode D d ⟨nodeId, a1⟩).daemon.world nod m2 = (none, w2) →
        (ListenNode D d ⟨nodeId, a1⟩).result
          = .ok ⟨D.pretty nod.peerId, [D.maString m1]⟩ ∧
        (ListenNode D (ListenNode D d ⟨nodeId, a1⟩).daemon ⟨nodeId, a2⟩).result
          = .ok ⟨D.pretty nod.peerId, [D.maString m1, D.maString m2]⟩) := by
  have one : ∀ (d : Daemon W) (req : ListenNodeRequest) (nod : Node) (maddr : Multiaddr)
      (w1 : W), D.validateListen req = none →
      d.runningNodes.Load req.nodeId = some nod →
      D.newMultiaddr req.addr = .ok maddr →
      D.addListenAddr d.world nod maddr = (none, w1) →
        (ListenNode D d req).result
          = .ok ⟨D.pretty nod.peerId,
              (D.getListenAddrs d.world nod).map D.maString ++ [D.maString maddr]⟩ ∧
        (ListenNode D d req).daemon.runningNodes = d.runningNodes ∧
        D.getListenAddrs (ListenNode D d req).daemon.world nod
          = D.getListenAddrs d.world nod ++ [maddr] := by
    intro d req nod maddr w1 hv hl hp ha
    have hout : ListenNode D d req
        = ⟨.ok ⟨D.pretty nod.peerId, multiAddrsToString D
            (D.getListenAddrs (D.flushNodeSpec ⟨d.runningNodes, w1⟩ req.nodeId).world nod)⟩,
          D.flushNodeSpec ⟨d.runningNodes, w1⟩ req.nodeId,
          [.newMultiaddr req.addr, .addListenAddr nod maddr, .flushNodeSpec req.nodeId]⟩ := by
      simp [ListenNode, hv, hl, hp, ha]
    rw [hout]
    have hf := hflush ⟨d.runningNodes, w1⟩ req.nodeId nod
    have hw := happ d.world nod maddr w1 ha
    refine ⟨?_, hf.2, ?_⟩
    · simp [multiAddrsToString, hf.1, hw]
    · simp [hf.1, hw]
  refine ⟨one, ?_⟩
  intro d nodeId a1 a2 nod m1 m2 w1 w2 hv1 hv2 hl hnil hp1 hp2 hadd1 hadd2
  obtain ⟨r1, g1, l1⟩ := one d ⟨nodeId, a1⟩ nod m1 w1 hv1 hl hp1 hadd1
  have hl2 : (ListenNode D d ⟨nodeId, a1⟩).daemon.runningNodes.Load nodeId = some nod := by
    rw [g1]; exact hl
  obtain ⟨r2, _, _⟩ := one (ListenNode D d ⟨nodeId, a1⟩).daemon ⟨nodeId, a2⟩ nod m2 w2 hv2
    hl2 hp2 hadd2
  refine ⟨?_, ?_⟩
  · rw [r1, hnil]; rfl
  · rw [r2, l1, hnil]; rfl

/-- C6 on the concrete world: on the node `"a"` just created, listening on
`/ip4/127.0.0.1/tcp/4001` returns exactly that address, and then listening on
`/ip4/127.0.0.1/tcp/4002` returns both, in the order added. -/
theorem ListenNode_appends_witness :
    (ListenNode simDeps (CreateNode simDeps simFresh ⟨"a"⟩).daemon
        ⟨"a", "/ip4/127.0.0.1/tcp/4001"⟩).result
      = .ok ⟨"sgtb", ["/ip4/127.0.0.1/tcp/4001"]⟩ ∧
    (ListenNode simDeps
        (ListenNode simDeps (CreateNode simDeps simFresh ⟨"a"⟩).daemon
          ⟨"a", "/ip4/127.0.0.1/tcp/4001"⟩).daemon
        ⟨"a", "/ip4/127.0.0.1/tcp/4002"⟩).result
      = .ok ⟨"sgtb", ["/ip4/127.0.0.1/tcp/4001", "/ip4/127.0.0.1/tcp/4002"]⟩ :=
  (ListenNode_appends simDeps simAddListenAddr_appends simFlushNodeSpec_frame).2
    (CreateNode simDeps simFresh ⟨"a"⟩).daemon "a" "/ip4/127.0.0.1/tcp/4001"
    "/ip4/127.0.0.1/tcp/4002" ⟨0, "a", [18, 32, 97, 1]⟩
    ⟨"/ip4/127.0.0.1/tcp/4001".toList.map Char.toNat⟩
    ⟨"/ip4/127.0.0.1/tcp/4002".toList.map Char.toNat⟩
    (simAddListenAddr (CreateNode simDeps simFresh ⟨"a"⟩).daemon.world ⟨0, "a", [18, 32, 97, 1]⟩
      ⟨"/ip4/127.0.0.1/tcp/4001".toList.map Char.toNat⟩).2
    (simAddListenAddr (ListenNode simDeps (CreateNode simDeps simFresh ⟨"a"⟩).daemon
        ⟨"a", "/ip4/127.0.0.1/tcp/4001"⟩).daemon.world ⟨0, "a", [18, 32, 97, 1]⟩
      ⟨"/ip4/127.0.0.1/tcp/4002".toList.map Char.toNat⟩).2
    rfl rfl (by decide) (by decide) (by decide) (by decide) (by decide) (by decide)

/-! ## The steps of one call and the method as a whole -/

/-- A `CreateNode` call that takes its steps undisturbed returns within four
steps, and does exactly what the method `CreateNode` does. -/
theorem CreateNode.steps_eq {W : Type} (D : Deps W) (d : Daemon W) (req : CreateNodeRequest) :
    CreateNode.steps D 4 (d, CreateCall.begin req)
      = ((CreateNode D d req).daemon,
          ⟨req, .returned (CreateNode D d req).result, (CreateNode D d req).calls⟩) := by
  cases hv : D.validateCreate req with
  | some err => simp [CreateNode.steps, CreateNode.step, CreateCall.begin, CreateNode, hv]
  | none =>
    cases hl : d.runningNodes.Load req.nodeId with
    | some h => simp [CreateNode.steps, CreateNode.step, CreateCall.begin, CreateNode, hv, hl]
    | none =>
      cases hn : D.newNode d.world req.nodeId with
      | mk res w1 =>
        cases res with
        | error err =>
          simp [CreateNode.steps, CreateNode.step, CreateCall.begin, CreateNode, hv, hl, hn]
        | ok nNode =>
          cases hr : D.registerNode ⟨d.runningNodes, w1⟩ nNode with
          | mk oerr d2 =>
            cases oerr with
            | some err =>
              simp [CreateNode.steps, CreateNode.step, CreateCall.begin, CreateNode, hv, hl, hn,
                hr]
            | none =>
              simp [CreateNode.steps, CreateNode.step, CreateCall.begin, CreateNode, hv, hl, hn,
                hr]

/-- A registration by insert-if-absent that fails reports the conflict and
leaves the daemon as it was. -/
theorem tryRegister_fail {W : Type} (d : Daemon W) (nod : Node) (err : GoError)
    (d2 : Daemon W) (h : tryRegister d nod = (some err, d2)) :
    d2 = d ∧ err = .errorf ("node already exists: " ++ nod.nodeId) := by
  unfold tryRegister at h
  split at h
  · simp only [Prod.mk.injEq, Option.some.injEq] at h
    exact ⟨h.2.symm, h.1.symm⟩
  · simp at h

/-- C7: let `RegisterNode` be the registry's insert-if-absent. Take a
`CreateNode` call for which the runtime has built the fresh instance `nNode`
(no handle in the registry points to it), and let `RegisterNode` fail with
`err` on the daemon state `d` it finds (another call may have registered the id
since the lookup). Then the call has not returned after the registration step;
its next step closes `nNode` and returns `err`, the conflict error, with no
response, so that `Close` is called exactly once, as the last call before the
return; the registry is then what it was before the registration, and it holds
no handle for the instance. For a call that runs undisturbed this is the result
of the method `CreateNode`, which leaves the registry as it was before the
call. When the registration succeeds the call returns at once and the instance
is not closed. -/
theorem CreateNode_registration_failure {W : Type} (D : Deps W) (d : Daemon W)
    (req : CreateNodeRequest) (nNode : Node) (err : GoError) (d2 : Daemon W)
    (hreg : D.registerNode d nNode = tryRegister d nNode)
    (hfail : D.registerNode d nNode = (some err, d2))
    (hfresh : ∀ e ∈ d.runningNodes, e.2 ≠ nNode) :
    (CreateNode.steps D 1 (d, ⟨req, .afterNewNode nNode, [.newNode req.nodeId]⟩)).2.isReturned
      = false ∧
    CreateNode.steps D 2 (d, ⟨req, .afterNewNode nNode, [.newNode req.nodeId]⟩)
      = (⟨d.runningNodes, D.close d.world nNode⟩,
          ⟨req, .returned (.error err),
            [.newNode req.nodeId, .registerNode nNode, .close nNode]⟩) ∧
    err = .errorf ("node already exists: " ++ nNode.nodeId) ∧
    List.count (Call.close nNode) [.newNode req.nodeId, .registerNode nNode, .close nNode] = 1 ∧
    (CreateNode.steps D 2
      (d, ⟨req, .afterNewNode nNode, [.newNode req.nodeId]⟩)).1.runningNodes = d.runningNodes ∧
    (∀ e ∈ (CreateNode.steps D 2
      (d, ⟨req, .afterNewNode nNode, [.newNode req.nodeId]⟩)).1.runningNodes, e.2 ≠ nNode) ∧
    (∀ (d0 : Daemon W), D.validateCreate req = none →
      d0.runningNodes.Load req.nodeId = none →
      D.newNode d0.world req.nodeId = (.ok nNode, d.world) →
      d.runningNodes = d0.runningNodes →
        CreateNode D d0 req
          = ⟨.error err, ⟨d0.runningNodes, D.close d.world nNode⟩,
              [.newNode req.nodeId, .registerNode nNode, .close nNode]⟩ ∧
        ∀ e ∈ (CreateNode D d0 req).daemon.runningNodes, e.2 ≠ nNode) ∧
    (∀ (d3 d4 : Daemon W), D.registerNode d3 nNode = (none, d4) →
      CreateNode.steps D 1 (d3, ⟨req, .afterNewNode nNode, [.newNode req.nodeId]⟩)
        = (d4, ⟨req, .returned (.ok ⟨D.pretty nNode.peerId⟩),
            [.newNode req.nodeId, .registerNode nNode]⟩) ∧
      Call.close nNode ∉ [Call.newNode req.nodeId, Call.registerNode nNode]) := by
  obtain ⟨hd2, herr⟩ := tryRegister_fail d nNode err d2 (hreg ▸ hfail)
  subst hd2
  have h2 : CreateNode.steps D 2 (d2, ⟨req, .afterNewNode nNode, [.newNode req.nodeId]⟩)
      = (⟨d2.runningNodes, D.close d2.world nNode⟩,
          ⟨req, .returned (.error err),
            [.newNode req.nodeId, .registerNode nNode, .close nNode]⟩) := by
    simp [CreateNode.steps, CreateNode.step, hfail]
  refine ⟨?_, h2, herr, ?_, ?_, ?_, ?_, ?_⟩
  · simp [CreateNode.steps, CreateNode.step, hfail, CreateCall.isReturned]
  · simp [List.count_cons]
  · rw [h2]
  · intro e he
    rw [h2] at he
    exact hfresh e he
  · intro d0 hv hl hn hd
    have hout : CreateNode D d0 req
        = ⟨.error err, ⟨d0.runningNodes, D.close d2.world nNode⟩,
            [.newNode req.nodeId, .registerNode nNode, .close nNode]⟩ := by
      obtain ⟨reg, w⟩ := d2
      simp only at hn hd
      subst hd
      simp [CreateNode, hv, hl, hn, hfail]
    refine ⟨hout, ?_⟩
    intro e he
    rw [hout] at he
    exact hfresh e (hd ▸ he)
  · intro d3 d4 hok
    refine ⟨?_, by simp⟩
    simp [CreateNode.steps, CreateNode.step, hok]

/-- C7 on the concrete world: in a race of two `CreateNode("x")` calls the
second call finds `"x"` registered by the first; it closes its own instance
(pointer 1) once and returns "node already exists", and the registry still
holds only the first call's handle (pointer 0). -/
theorem CreateNode_registration_failure_witness :
    CreateNode.steps simDeps 2
        (simRaceLost, ⟨⟨"x"⟩, .afterNewNode ⟨1, "x", [18, 32, 120, 1]⟩, [.newNode "x"]⟩)
      = (⟨simRaceLost.runningNodes, simClose simRaceLost.world ⟨1, "x", [18, 32, 120, 1]⟩⟩,
          ⟨⟨"x"⟩, .returned (.error (.errorf "node already exists: x")),
            [.newNode "x", .registerNode ⟨1, "x", [18, 32, 120, 1]⟩,
              .close ⟨1, "x", [18, 32, 120, 1]⟩]⟩) ∧
    simRaceLost.runningNodes = [("x", ⟨0, "x", [18, 32, 120, 1]⟩)] ∧
    (simClose simRaceLost.world ⟨1, "x", [18, 32, 120, 1]⟩).nodes.map SimNode.closed = [0, 1] :=
  ⟨(CreateNode_registration_failure simDeps simRaceLost ⟨"x"⟩ ⟨1, "x", [18, 32, 120, 1]⟩
      (.errorf "node already exists: x") simRaceLost rfl (by decide) (by decide)).2.1,
    by decide, by decide⟩

/-! ## Write-back -/

/-- The write-back calls of `StartNode` and `ListenNode`. A `StartNode` that
succeeds starts `flushNodeSpec` for its id once with a `go` statement, and
returns the daemon as `Daemon.StartNode` left it. A `ListenNode` that succeeds
calls `flushNodeSpec` for its id once as a plain call and starts no goroutine:
the daemon it returns with is the one `flushNodeSpec` has left. A call that
fails makes no write-back call of either kind. -/
theorem write_back_calls {W : Type} (D : Deps W) (d : Daemon W) :
    (∀ (req : StartNodeRequest),
      (∀ r, (StartNode D d req).result = .ok r →
        (StartNode D d req).calls.count (.goFlushNodeSpec req.nodeId) = 1 ∧
        (∀ id, Call.flushNodeSpec id ∉ (StartNode D d req).calls) ∧
        ∃ spec nod, D.startNode d spec = (.ok nod, (StartNode D d req).daemon)) ∧
      (∀ e, (StartNode D d req).result = .error e →
        ∀ id, Call.goFlushNodeSpec id ∉ (StartNode D d req).calls ∧
          Call.flushNodeSpec id ∉ (StartNode D d req).calls)) ∧
    (∀ (req : ListenNodeRequest),
      (∀ r, (ListenNode D d req).result = .ok r →
        (ListenNode D d req).calls.count (.flushNodeSpec req.nodeId) = 1 ∧
        (∀ id, Call.goFlushNodeSpec id ∉ (ListenNode D d req).calls) ∧
        ∃ nod maddr w1, D.addListenAddr d.world nod maddr = (none, w1) ∧
          (ListenNode D d req).daemon = D.flushNodeSpec ⟨d.runningNodes, w1⟩ req.nodeId) ∧
      (∀ e, (ListenNode D d req).result = .error e →
        ∀ id, Call.goFlushNodeSpec id ∉ (ListenNode D d req).calls ∧
          Call.flushNodeSpec id ∉ (ListenNode D d req).calls)) := by
  refine ⟨?_, ?_⟩
  · intro req
    cases hv : D.validateStart req with
    | some err => simp [StartNode, hv]
    | none =>
      cases hg : D.getNode d.world req.nodeId with
      | error err => simp [StartNode, hv, hg]
      | ok ospec =>
        cases ospec with
        | none => simp [StartNode, hv, hg]
        | some spec =>
          cases hs : D.startNode d spec with
          | mk res d1 =>
            cases res with
            | error err => simp [StartNode, hv, hg, hs]
            | ok nod =>
              simp only [StartNode, hv, hg, hs]
              refine ⟨fun r _ => ⟨by simp [List.count_cons], by simp, spec, nod, hs⟩, ?_⟩
              intro e he
              simp at he
  · intro req
    cases hv : D.validateListen req with
    | some err => simp [ListenNode, hv]
    | none =>
      cases hl : d.runningNodes.Load req.nodeId with
      | none => simp [ListenNode, hv, hl]
      | some nod =>
        cases hp : D.newMultiaddr req.addr with
        | error err => simp [ListenNode, hv, hl, hp]
        | ok maddr =>
          cases ha : D.addListenAddr d.world nod maddr with
          | mk oerr w1 =>
            cases oerr with
            | some err => simp [ListenNode, hv, hl, hp, ha]
            | none =>
              simp only [ListenNode, hv, hl, hp, ha]
              refine ⟨fun r _ => ⟨by simp [List.count_cons], by simp, nod, maddr, w1, ha, rfl⟩,
                ?_⟩
              intro e he
              simp at he

/-- C8 at the failing input: `ListenNode("a", "/ip4/127.0.0.1/tcp/4001")` on
the node `"a"` just created makes the plain call `flushNodeSpec("a")` and no
`go` statement, and the daemon it returns with already has the record written
to the store, which was empty before: the write-back has completed before the
response is returned. `StartNode("b")` for a stored spec starts its write-back
with `go` and returns with the store as it was. -/
theorem ListenNode_write_back_is_awaited :
    (ListenNode simDeps (CreateNode simDeps simFresh ⟨"a"⟩).daemon
        ⟨"a", "/ip4/127.0.0.1/tcp/4001"⟩).calls
      = [.newMultiaddr "/ip4/127.0.0.1/tcp/4001",
          .addListenAddr ⟨0, "a", [18, 32, 97, 1]⟩
            ⟨"/ip4/127.0.0.1/tcp/4001".toList.map Char.toNat⟩,
          .flushNodeSpec "a"] ∧
    Call.goFlushNodeSpec "a" ∉ (ListenNode simDeps (CreateNode simDeps simFresh ⟨"a"⟩).daemon
        ⟨"a", "/ip4/127.0.0.1/tcp/4001"⟩).calls ∧
    (CreateNode simDeps simFresh ⟨"a"⟩).daemon.world.store = [] ∧
    (ListenNode simDeps (CreateNode simDeps simFresh ⟨"a"⟩).daemon
        ⟨"a", "/ip4/127.0.0.1/tcp/4001"⟩).daemon.world.store
      = [⟨"a", [1, 97], ["/ip4/127.0.0.1/tcp/4001"]⟩] ∧
    (StartNode simDeps simStoppedB ⟨"b"⟩).calls
      = [.getNode "b", .startNode ⟨"b", [1, 98], ["/ip4/1.2.3.4/tcp/1"]⟩,
          .goFlushNodeSpec "b"] ∧
    (StartNode simDeps simStoppedB ⟨"b"⟩).daemon.world.store = simStoppedB.world.store := by
  decide

/-! ## Error propagation -/

/-- C9 (amended): in `CreateNode`, `StartNode`, `ListenNode` and `StatusNode`
every error returned by `node.NewNode`, `RegisterNode`, `GetNode`, address
parsing, `AddListenAddr`, key unmarshalling and peer-id derivation is returned
to the caller unchanged (no operation name and no node identity is added), and
an error of `Daemon.StartNode` is returned annotated with the message
"start node" (no node identity), its cause kept. No such error is swallowed or
replaced. -/
theorem collaborator_errors_reach_caller {W : Type} (D : Deps W) (d : Daemon W) :
    (∀ (req : CreateNodeRequest) (err : GoError) (w1 : W),
      D.validateCreate req = none → d.runningNodes.Load req.nodeId = none →
      D.newNode d.world req.nodeId = (.error err, w1) →
        (CreateNode D d req).result = .error err) ∧
    (∀ (req : CreateNodeRequest) (nNode : Node) (w1 : W) (err : GoError) (d2 : Daemon W),
      D.validateCreate req = none → d.runningNodes.Load req.nodeId = none →
      D.newNode d.world req.nodeId = (.ok nNode, w1) →
      D.registerNode ⟨d.runningNodes, w1⟩ nNode = (some err, d2) →
        (CreateNode D d req).result = .error err) ∧
    (∀ (req : StartNodeRequest) (err : GoError),
      D.validateStart req = none → D.getNode d.world req.nodeId = .error err →
        (StartNode D d req).result = .error err) ∧
    (∀ (req : StartNodeRequest) (spec : NodeSpec) (err : GoError) (d1 : Daemon W),
      D.validateStart req = none → D.getNode d.world req.nodeId = .ok (some spec) →
      D.startNode d spec = (.error err, d1) →
        (StartNode D d req).result = .error (.withMessage err "start node") ∧
        (GoError.withMessage err "start node").Cause = err.Cause) ∧
    (∀ (req : ListenNodeRequest) (nod : Node) (err : GoError),
      D.validateListen req = none → d.runningNodes.Load req.nodeId = some nod →
      D.newMultiaddr req.addr = .error err →
        (ListenNode D d req).result = .error err) ∧
    (∀ (req : ListenNodeRequest) (nod : Node) (maddr : Multiaddr) (err : GoError) (w1 : W),
      D.validateListen req = none → d.runningNodes.Load req.nodeId = some nod →
      D.newMultiaddr req.addr = .ok maddr →
      D.addListenAddr d.world nod maddr = (some err, w1) →
        (ListenNode D d req).result = .error err) ∧
    (∀ (req : StatusNodeRequest) (err : GoError),
      D.validateStatus req = none → d.runningNodes.Load req.nodeId = none →
      D.getNode d.world req.nodeId = .error err →
        (StatusNode D d req).result = .error err) ∧
    (∀ (req : StatusNodeRequest) (spec : NodeSpec) (err : GoError),
      D.validateStatus req = none → d.runningNodes.Load req.nodeId = none →
      D.getNode d.world req.nodeId = .ok (some spec) →
      D.unmarshalPrivKey spec = .error err →
        (StatusNode D d req).result = .error err) ∧
    (∀ (req : StatusNodeRequest) (spec : NodeSpec) (privKey : PrivKey) (err : GoError),
      D.validateStatus req = none → d.runningNodes.Load req.nodeId = none →
      D.getNode d.world req.nodeId = .ok (some spec) →
      D.unmarshalPrivKey spec = .ok privKey →
      D.idFromPublicKey (D.getPublic privKey) = .error err →
        (StatusNode D d req).result = .error err) := by
  refine ⟨?_, ?_, ?_, ?_, ?_, ?_, ?_, ?_, ?_⟩
  · intro req err w1 hv hl hn
    simp [CreateNode, hv, hl, hn]
  · intro req nNode w1 err d2 hv hl hn hr
    simp [CreateNode, hv, hl, hn, hr]
  · intro req err hv hg
    simp [StartNode, hv, hg]
  · intro req spec err d1 hv hg hs
    exact ⟨by simp [StartNode, hv, hg, hs], rfl⟩
  · intro req nod err hv hl hp
    simp [ListenNode, hv, hl, hp]
  · intro req nod maddr err w1 hv hl hp ha
    simp [ListenNode, hv, hl, hp, ha]
  · intro req err hv hl hg
    simp [StatusNode, hv, hl, hg]
  · intro req spec err hv hl hg hk
    simp [StatusNode, hv, hl, hg, hk]
  · intro req spec privKey err hv hl hg hk hp
    simp [StatusNode, hv, hl, hg, hk, hp]

/-- C9 (amended) on the concrete world: the error of a failing `node.NewNode`
is what `CreateNode("a")` returns, and the conflict reported by
`Daemon.StartNode` for the running node `"b"` is what `StartNode("b")` returns,
annotated with "start node". -/
theorem collaborator_errors_reach_caller_witness :
    (CreateNode simDeps simDown ⟨"a"⟩).result = .error (.errorf "node runtime unavailable") ∧
    (StartNode simDeps (StartNode simDeps simStoppedB ⟨"b"⟩).daemon ⟨"b"⟩).result
      = .error (.withMessage (.errorf "node already exists: b") "start node") :=
  ⟨(collaborator_errors_reach_caller simDeps simDown).1 ⟨"a"⟩
      (.errorf "node runtime unavailable") simDown.world rfl rfl rfl,
    ((collaborator_errors_reach_caller simDeps
        (StartNode simDeps simStoppedB ⟨"b"⟩).daemon).2.2.2.1 ⟨"b"⟩
      ⟨"b", [1, 98], ["/ip4/1.2.3.4/tcp/1"]⟩ (.errorf "node already exists: b")
      (StartNode simDeps simStoppedB ⟨"b"⟩).daemon rfl (by decide) (by decide)).1⟩

/-- C9 as stated fails: with a failing runtime, `CreateNode("a")` passes
validation and the lookup, `node.NewNode` returns an error, and the caller gets
that very error: it is not an annotation of it naming an operation and the
node identity. -/
theorem collaborator_error_not_wrapped :
    simDeps.validateCreate ⟨"a"⟩ = none ∧
    simDown.runningNodes.Load "a" = none ∧
    simDeps.newNode simDown.world "a"
      = (.error (.errorf "node runtime unavailable"), simDown.world) ∧
    (CreateNode simDeps simDown ⟨"a"⟩).result = .error (.errorf "node runtime unavailable") ∧
    ¬ ∃ (op : String) (e : GoError), (CreateNode simDeps simDown ⟨"a"⟩).result = .error e ∧
      GoError.WrapsWith op "a" (.errorf "node runtime unavailable") e := by
  refine ⟨rfl, rfl, rfl, rfl, ?_⟩
  rintro ⟨op, e, he, msg, hwrap, _⟩
  have hres : (CreateNode simDeps simDown ⟨"a"⟩).result
      = .error (.errorf "node runtime unavailable") := rfl
  rw [hres] at he
  injection he with he
  rw [← he] at hwrap
  exact GoError.noConfusion hwrap

/-- C10 as stated fails: a single `CreateNode("x")` call (`K = 1`) on a fresh
daemon whose runtime fails runs to its return, and no call has succeeded: the
call returns the runtime's error and the registry holds no handle for `"x"`. -/
theorem concurrent_CreateNode_runtime_failure :
    simDown.runningNodes.Load "x" = none ∧
    (createRace simDeps simDown "x" 1 [0, 0]).2
      = [⟨⟨"x"⟩, .returned (.error (.errorf "node runtime unavailable")), [.newNode "x"]⟩] ∧
    (∀ c ∈ (createRace simDeps simDown "x" 1 [0, 0]).2,
      c.isReturned = true ∧ c.succeeded = false) ∧
    (createRace simDeps simDown "x" 1 [0, 0]).1.runningNodes.handles "x" = 0 := by
  decide

/-! ## Concurrent `CreateNode` calls -/

theorem Registry.Load_cons_self (reg : Registry) (x : String) (n : Node) :
    Registry.Load ((x, n) :: reg) x = some n := by
  simp [Registry.Load]

/-- One step of a well-formed call keeps it well formed; the registry changes
only by the insertion of the call's handle under an id that was absent, which
is also the only way for a call to succeed; a call that has returned stays as
it is. -/
theorem CreateNode.step_wf {W : Type} (D : Deps W) (x : String) (reg0 : Registry)
    (hreg : ∀ (d : Daemon W) (n : Node), D.registerNode d n = tryRegister d n)
    (hnewId : ∀ (w : W) (n : Node) (w1 : W), D.newNode w x = (.ok n, w1) → n.nodeId = x)
    (hvalid : D.validateCreate ⟨x⟩ = none)
    (d : Daemon W) (c : CreateCall) (hwf : c.WF D x reg0 d.runningNodes)
    (hr : d.runningNodes = reg0 ∨ ∃ n, d.runningNodes = (x, n) :: reg0) :
    (CreateNode.step D d c).2.WF D x reg0 (CreateNode.step D d c).1.runningNodes ∧
    ((CreateNode.step D d c).1.runningNodes = d.runningNodes ∨
      (d.runningNodes = reg0 ∧ d.runningNodes.Load x = none ∧
        (CreateNode.step D d c).2.succeeded = true ∧
        ∃ n, (CreateNode.step D d c).1.runningNodes = (x, n) :: reg0)) ∧
    (c.isReturned = true → CreateNode.step D d c = (d, c)) ∧
    ((CreateNode.step D d c).2.succeeded = true → c.succeeded = false →
      d.runningNodes.Load x = none) := by
  obtain ⟨req, pc, calls⟩ := c
  obtain ⟨hreq, hpc⟩ := hwf
  simp only at hreq
  subst hreq
  cases pc with
  | entry =>
    simp only at hpc
    subst hpc
    cases hl : d.runningNodes.Load x with
    | none =>
      have hs : CreateNode.step D d ⟨⟨x⟩, .entry, []⟩ = (d, ⟨⟨x⟩, .afterLoad, []⟩) := by
        simp [CreateNode.step, hvalid, hl]
      rw [hs]
      exact ⟨⟨rfl, rfl⟩, Or.inl rfl, by simp [CreateCall.isReturned],
        by simp [CreateCall.succeeded]⟩
    | some h =>
      have hs : CreateNode.step D d ⟨⟨x⟩, .entry, []⟩
          = (d, ⟨⟨x⟩, .returned (.error (.errorf ("node already exists: " ++ x))), []⟩) := by
        simp [CreateNode.step, hvalid, hl]
      rw [hs]
      exact ⟨⟨rfl, Or.inl ⟨rfl, rfl, by simp [hl]⟩⟩, Or.inl rfl,
        by simp [CreateCall.isReturned], by simp [CreateCall.succeeded]⟩
  | afterLoad =>
    simp only at hpc
    subst hpc
    cases hn : D.newNode d.world x with
    | mk res w1 =>
      cases res with
      | error err =>
        have hs : CreateNode.step D d ⟨⟨x⟩, .afterLoad, []⟩
            = (⟨d.runningNodes, w1⟩, ⟨⟨x⟩, .returned (.error err), [.newNode x]⟩) := by
          simp [CreateNode.step, hn]
        rw [hs]
        exact ⟨⟨rfl, Or.inr (Or.inl ⟨rfl, d.world, w1, hn⟩)⟩, Or.inl rfl,
          by simp [CreateCall.isReturned], by simp [CreateCall.succeeded]⟩
      | ok n =>
        have hs : CreateNode.step D d ⟨⟨x⟩, .afterLoad, []⟩
            = (⟨d.runningNodes, w1⟩, ⟨⟨x⟩, .afterNewNode n, [.newNode x]⟩) := by
          simp [CreateNode.step, hn]
        rw [hs]
        exact ⟨⟨rfl, rfl, hnewId _ _ _ hn⟩, Or.inl rfl, by simp [CreateCall.isReturned],
          by simp [CreateCall.succeeded]⟩
  | afterNewNode n =>
    simp only at hpc
    obtain ⟨hcalls, hid⟩ := hpc
    subst hcalls
    cases hl : d.runningNodes.Load x with
    | none =>
      have hd0 : d.runningNodes = reg0 := by
        rcases hr with h | ⟨m, h⟩
        · exact h
        · rw [h, Registry.Load_cons_self] at hl
          exact absurd hl (by simp)
      have hs : CreateNode.step D d ⟨⟨x⟩, .afterNewNode n, [.newNode x]⟩
          = (⟨(x, n) :: d.runningNodes, d.world⟩,
              ⟨⟨x⟩, .returned (.ok ⟨D.pretty n.peerId⟩), [.newNode x, .registerNode n]⟩) := by
        simp [CreateNode.step, hreg, tryRegister, hid, hl]
      rw [hs]
      refine ⟨⟨rfl, n, rfl, rfl, ?_⟩, Or.inr ⟨hd0, rfl, rfl, n, ?_⟩,
        by simp [CreateCall.isReturned], fun _ _ => rfl⟩
      · simp [hd0]
      · simp [hd0]
    | some h =>
      have hs : CreateNode.step D d ⟨⟨x⟩, .afterNewNode n, [.newNode x]⟩
          = (d, ⟨⟨x⟩, .afterRegisterFail n (.errorf ("node already exists: " ++ x)),
              [.newNode x, .registerNode n]⟩) := by
        simp [CreateNode.step, hreg, tryRegister, hid, hl]
      rw [hs]
      exact ⟨⟨rfl, rfl, rfl, by simp [hl]⟩, Or.inl rfl, by simp [CreateCall.isReturned],
        by simp [CreateCall.succeeded]⟩
  | afterRegisterFail n err =>
    simp only at hpc
    obtain ⟨hcalls, herr, hl⟩ := hpc
    subst hcalls
    have hs : CreateNode.step D d ⟨⟨x⟩, .afterRegisterFail n err, [.newNode x, .registerNode n]⟩
        = (⟨d.runningNodes, D.close d.world n⟩,
            ⟨⟨x⟩, .returned (.error err), [.newNode x, .registerNode n, .close n]⟩) := by
      simp [CreateNode.step]
    rw [hs]
    exact ⟨⟨rfl, Or.inr (Or.inr ⟨n, rfl, herr, hl⟩)⟩, Or.inl rfl,
      by simp [CreateCall.isReturned], by simp [CreateCall.succeeded]⟩
  | returned res =>
    have hs : CreateNode.step D d ⟨⟨x⟩, .returned res, calls⟩ = (d, ⟨⟨x⟩, .returned res, calls⟩) := by
      simp [CreateNode.step]
    rw [hs]
    refine ⟨⟨rfl, hpc⟩, Or.inl rfl, fun _ => rfl, ?_⟩
    intro h1 h2
    rw [h1] at h2
    exact absurd h2 (by simp)

theorem CreateCall.isReturned_of_succeeded (c : CreateCall) (h : c.succeeded = true) :
    c.isReturned = true := by
  obtain ⟨req, pc, calls⟩ := c
  cases pc with
  | returned res => rfl
  | _ => simp [CreateCall.succeeded] at h

/-- A call that has succeeded sees its id in the registry. -/
theorem CreateCall.WF.load_of_succeeded {W : Type} {D : Deps W} {x : String}
    {reg0 reg : Registry} {c : CreateCall} (hwf : c.WF D x reg0 reg)
    (h : c.succeeded = true) : reg.Load x ≠ none := by
  obtain ⟨req, pc, calls⟩ := c
  obtain ⟨_, hpc⟩ := hwf
  cases pc with
  | returned res =>
    cases res with
    | ok r =>
      simp only at hpc
      obtain ⟨n, _, _, hreg⟩ := hpc
      rw [hreg, Registry.Load_cons_self]
      simp
    | error e => simp [CreateCall.succeeded] at h
  | _ => simp [CreateCall.succeeded] at h

/-- Well-formedness of a call survives the steps of the other calls. -/
theorem CreateCall.WF.mono {W : Type} {D : Deps W} {x : String} {reg0 reg reg1 : Registry}
    {c : CreateCall} (hwf : c.WF D x reg0 reg)
    (hchg : reg1 = reg ∨ (reg.Load x = none ∧ ∃ n, reg1 = (x, n) :: reg0)) :
    c.WF D x reg0 reg1 := by
  rcases hchg with h | ⟨hl, n, _⟩
  · rw [h]; exact hwf
  · obtain ⟨req, pc, calls⟩ := c
    obtain ⟨hreq, hpc⟩ := hwf
    refine ⟨hreq, ?_⟩
    cases pc with
    | entry => exact hpc
    | afterLoad => exact hpc
    | afterNewNode m => exact hpc
    | afterRegisterFail m err =>
      simp only at hpc
      exact absurd hl hpc.2.2
    | returned res =>
      cases res with
      | error e =>
        simp only at hpc
        rcases hpc with ⟨_, _, h⟩ | h | ⟨m, _, _, h⟩
        · exact absurd hl h
        · exact Or.inr (Or.inl h)
        · exact absurd hl h
      | ok r =>
        simp only at hpc
        obtain ⟨m, _, _, hreg⟩ := hpc
        rw [hreg, Registry.Load_cons_self] at hl
        exact absurd hl (by simp)

/-- The invariant is kept by every step of every call. -/
theorem stepAt_inv {W : Type} (D : Deps W) (x : String) (reg0 : Registry)
    (hreg : ∀ (d : Daemon W) (n : Node), D.registerNode d n = tryRegister d n)
    (hnewId : ∀ (w : W) (n : Node) (w1 : W), D.newNode w x = (.ok n, w1) → n.nodeId = x)
    (hvalid : D.validateCreate ⟨x⟩ = none)
    (cfg : Config W) (hinv : CreateInv D x reg0 cfg) (i : Nat) :
    CreateInv D x reg0 (stepAt D cfg i) := by
  unfold stepAt
  cases hc : cfg.2[i]? with
  | none => exact hinv
  | some c =>
    have hcmem : c ∈ cfg.2 := List.getElem?_mem hc
    have hilt : i < cfg.2.length := (List.getElem?_eq_some.mp hc).1
    have hrr : cfg.1.runningNodes = reg0 ∨ ∃ n, cfg.1.runningNodes = (x, n) :: reg0 := by
      rcases hinv.reg with h | ⟨n, _, _, h, _⟩
      · exact Or.inl h
      · exact Or.inr ⟨n, h⟩
    obtain ⟨hwf1, hchg, hret, hsucc⟩ :=
      CreateNode.step_wf D x reg0 hreg hnewId hvalid cfg.1 c (hinv.wf c hcmem) hrr
    simp only
    -- the call at `i` after the step, when it had succeeded before
    have hsame : c.succeeded = true → (CreateNode.step D cfg.1 c).2 = c := by
      intro h
      rw [hret (CreateCall.isReturned_of_succeeded c h)]
    -- a winner among the other calls forbids a new winner at `i`
    have hclash : ∀ (j : Nat) (cj : CreateCall), cfg.2[j]? = some cj → cj.succeeded = true →
        (CreateNode.step D cfg.1 c).2.succeeded = true → i = j := by
      intro j cj hj hsj hsi
      cases hcs : c.succeeded with
      | true => exact hinv.uniq i j c cj hc hj hcs hsj
      | false =>
        have hl := hsucc hsi hcs
        exact absurd hl ((hinv.wf cj (List.getElem?_mem hj)).load_of_succeeded hsj)
    refine ⟨?_, ?_, ?_⟩
    · intro c2 hc2
      rcases List.mem_or_eq_of_mem_set hc2 with h | h
      · refine (hinv.wf c2 h).mono ?_
        rcases hchg with h1 | ⟨_, hl, _, n, hn⟩
        · exact Or.inl h1
        · exact Or.inr ⟨hl, n, hn⟩
      · rw [h]; exact hwf1
    · intro a b ca cb ha hb sa sb
      rw [List.getElem?_set] at ha hb
      by_cases hai : i = a
      · by_cases hbi : i = b
        · rw [← hai, ← hbi]
        · rw [if_pos hai, if_pos hilt] at ha
          rw [if_neg hbi] at hb
          rw [← hai]
          refine hclash b cb hb sb ?_
          rw [Option.some.inj ha]; exact sa
      · by_cases hbi : i = b
        · rw [if_neg hai] at ha
          rw [if_pos hbi, if_pos hilt] at hb
          rw [← hbi]
          refine (hclash a ca ha sa ?_).symm
          rw [Option.some.inj hb]; exact sb
        · rw [if_neg hai] at ha
          rw [if_neg hbi] at hb
          exact hinv.uniq a b ca cb ha hb sa sb
    · rcases hchg with h1 | ⟨_, _, hs, n, hn⟩
      · rcases hinv.reg with h | ⟨n, j, cj, h, hj, hsj⟩
        · exact Or.inl (h1.trans h)
        · refine Or.inr ⟨n, j, cj, h1.trans h, ?_, hsj⟩
          rw [List.getElem?_set]
          by_cases hij : i = j
          · rw [if_pos hij, if_pos hilt]
            rw [← hij, hc] at hj
            have hcj : c = cj := Option.some.inj hj
            rw [hsame (hcj ▸ hsj), hcj]
          · rw [if_neg hij]; exact hj
      · refine Or.inr ⟨n, i, (CreateNode.step D cfg.1 c).2, hn, ?_, hs⟩
        rw [List.getElem?_set, if_pos rfl, if_pos hilt]

/-- The invariant holds after every schedule. -/
theorem runSchedule_inv {W : Type} (D : Deps W) (x : String) (reg0 : Registry)
    (hreg : ∀ (d : Daemon W) (n : Node), D.registerNode d n = tryRegister d n)
    (hnewId : ∀ (w : W) (n : Node) (w1 : W), D.newNode w x = (.ok n, w1) → n.nodeId = x)
    (hvalid : D.validateCreate ⟨x⟩ = none)
    (schedule : List Nat) :
    ∀ cfg : Config W, CreateInv D x reg0 cfg → CreateInv D x reg0 (runSchedule D cfg schedule) := by
  induction schedule with
  | nil => intro cfg h; exact h
  | cons i rest ih =>
    intro cfg h
    exact ih (stepAt D cfg i) (stepAt_inv D x reg0 hreg hnewId hvalid cfg h i)

/-- A schedule neither adds nor removes a call. -/
theorem runSchedule_length {W : Type} (D : Deps W) (schedule : List Nat) :
    ∀ cfg : Config W, (runSchedule D cfg schedule).2.length = cfg.2.length := by
  induction schedule with
  | nil => intro cfg; rfl
  | cons i rest ih =>
    intro cfg
    have h1 : (stepAt D cfg i).2.length = cfg.2.length := by
      unfold stepAt
      cases cfg.2[i]? with
      | none => rfl
      | some c => simp
    exact (ih (stepAt D cfg i)).trans h1

/-- The invariant holds when the calls are received. -/
theorem CreateInv.init {W : Type} (D : Deps W) (x : String) (d : Daemon W) (K : Nat) :
    CreateInv D x d.runningNodes (d, List.replicate K (CreateCall.begin ⟨x⟩)) := by
  refine ⟨?_, ?_, Or.inl rfl⟩
  · intro c hc
    rw [List.eq_of_mem_replicate hc]
    exact ⟨rfl, rfl⟩
  · intro i j ci cj hi _ si _
    have hmem := List.getElem?_mem hi
    rw [List.eq_of_mem_replicate hmem] at si
    simp [CreateCall.begin, CreateCall.succeeded] at si

theorem Registry.handles_eq_zero (reg : Registry) (x : String) (h : reg.Load x = none) :
    reg.handles x = 0 := by
  induction reg with
  | nil => rfl
  | cons e rest ih =>
    obtain ⟨k, n⟩ := e
    by_cases hk : k = x
    · simp [Registry.Load, hk] at h
    · simp only [Registry.Load, if_neg hk] at h
      have := ih h
      simp only [Registry.handles] at this ⊢
      simp [List.filter_cons, hk, this]

theorem Registry.handles_cons_self (reg : Registry) (x : String) (n : Node)
    (h : reg.Load x = none) : Registry.handles ((x, n) :: reg) x = 1 := by
  have := Registry.handles_eq_zero reg x h
  simp only [Registry.handles] at this ⊢
  simp [List.filter_cons, this]

/-- In the concrete world the runtime builds a node with the requested id. -/
theorem simNewNode_nodeId (x : String) (w : SimWorld) (n : Node) (w1 : SimWorld)
    (h : simNewNode w x = (.ok n, w1)) : n.nodeId = x := by
  unfold simNewNode at h
  split at h
  · simp only [Prod.mk.injEq, Except.ok.injEq] at h
    rw [← h.1]
  · simp at h

/-- C10 (amended): let `RegisterNode` be the registry's atomic insert-if-absent
and let `node.NewNode` build nodes with the requested id. Let `K ≥ 1` calls
`CreateNode(x)` run concurrently, in any interleaving of their steps, on a
daemon whose registry does not hold `x`, until all have returned. Then at most
one call succeeds. The call that succeeds made the calls `NewNode`,
`RegisterNode` and never closed its instance, which is the one handle the
registry then holds for `x`. Every other call either failed with "node already
exists" at the lookup (it built no instance), or failed with "node already
exists" at the registration and closed its instance exactly once, or returned
the error of `node.NewNode` (it built no instance). The registry ends as it
began when no call succeeded. When `node.NewNode` failed for none of the calls
(no call ended with `NewNode` as its only collaborator call), exactly one call
succeeds, all the others fail with "node already exists", and the registry
then holds exactly one handle for `x`. -/
theorem concurrent_CreateNode {W : Type} (D : Deps W) (x : String) (d : Daemon W) (K : Nat)
    (schedule : List Nat)
    (hreg : ∀ (d : Daemon W) (n : Node), D.registerNode d n = tryRegister d n)
    (hnewId : ∀ (w : W) (n : Node) (w1 : W), D.newNode w x = (.ok n, w1) → n.nodeId = x)
    (hvalid : D.validateCreate ⟨x⟩ = none)
    (hmiss : d.runningNodes.Load x = none)
    (hK : 1 ≤ K)
    (hdone : ∀ c ∈ (createRace D d x K schedule).2, c.isReturned = true) :
    (createRace D d x K schedule).2.length = K ∧
    (∀ (i j : Nat) (ci cj : CreateCall),
      (createRace D d x K schedule).2[i]? = some ci →
      (createRace D d x K schedule).2[j]? = some cj →
      ci.succeeded = true → cj.succeeded = true → i = j) ∧
    (∀ c ∈ (createRace D d x K schedule).2,
      (∃ n, c.pc = .returned (.ok ⟨D.pretty n.peerId⟩) ∧
        c.calls = [.newNode x, .registerNode n] ∧
        (createRace D d x K schedule).1.runningNodes = (x, n) :: d.runningNodes ∧
        (createRace D d x K schedule).1.runningNodes.handles x = 1) ∨
      (c.pc = .returned (.error (.errorf ("node already exists: " ++ x))) ∧ c.calls = []) ∨
      (∃ n, c.pc = .returned (.error (.errorf ("node already exists: " ++ x))) ∧
        c.calls = [.newNode x, .registerNode n, .close n]) ∨
      (∃ e w w1, D.newNode w x = (.error e, w1) ∧ c.pc = .returned (.error e) ∧
        c.calls = [.newNode x])) ∧
    ((∀ c ∈ (createRace D d x K schedule).2, c.succeeded = false) →
      (createRace D d x K schedule).1.runningNodes = d.runningNodes) ∧
    ((∀ c ∈ (createRace D d x K schedule).2, c.calls ≠ [.newNode x]) →
      ∃ (i : Nat) (ci : CreateCall), (createRace D d x K schedule).2[i]? = some ci ∧
        ci.succeeded = true ∧
        (∀ (j : Nat) (cj : CreateCall), (createRace D d x K schedule).2[j]? = some cj → j ≠ i →
          cj.pc = .returned (.error (.errorf ("node already exists: " ++ x)))) ∧
        (createRace D d x K schedule).1.runningNodes.handles x = 1) := by
  have inv : CreateInv D x d.runningNodes (createRace D d x K schedule) :=
    runSchedule_inv D x d.runningNodes hreg hnewId hvalid schedule _ (CreateInv.init D x d K)
  have hlen : (createRace D d x K schedule).2.length = K := by
    unfold createRace
    rw [runSchedule_length]
    simp
  -- what a returned call looks like
  have hclass : ∀ c ∈ (createRace D d x K schedule).2,
      (∃ n, c.pc = .returned (.ok ⟨D.pretty n.peerId⟩) ∧
        c.calls = [.newNode x, .registerNode n] ∧
        (createRace D d x K schedule).1.runningNodes = (x, n) :: d.runningNodes ∧
        (createRace D d x K schedule).1.runningNodes.handles x = 1) ∨
      (c.pc = .returned (.error (.errorf ("node already exists: " ++ x))) ∧ c.calls = [] ∧
        (createRace D d x K schedule).1.runningNodes.Load x ≠ none) ∨
      (∃ n, c.pc = .returned (.error (.errorf ("node already exists: " ++ x))) ∧
        c.calls = [.newNode x, .registerNode n, .close n] ∧
        (createRace D d x K schedule).1.runningNodes.Load x ≠ none) ∨
      (∃ e w w1, D.newNode w x = (.error e, w1) ∧ c.pc = .returned (.error e) ∧
        c.calls = [.newNode x]) := by
    intro c hc
    have hwf := inv.wf c hc
    have hret := hdone c hc
    obtain ⟨req, pc, calls⟩ := c
    obtain ⟨_, hpc⟩ := hwf
    cases pc with
    | returned res =>
      cases res with
      | ok r =>
        simp only at hpc
        obtain ⟨n, h1, h2, h3⟩ := hpc
        refine Or.inl ⟨n, by rw [h2], h1, h3, ?_⟩
        rw [h3]
        exact Registry.handles_cons_self _ _ _ hmiss
      | error e =>
        simp only at hpc
        rcases hpc with ⟨h1, h2, h3⟩ | ⟨h1, w, w1, h2⟩ | ⟨n, h1, h2, h3⟩
        · exact Or.inr (Or.inl ⟨by rw [h2], h1, h3⟩)
        · exact Or.inr (Or.inr (Or.inr ⟨e, w, w1, h2, rfl, h1⟩))
        · exact Or.inr (Or.inr (Or.inl ⟨n, by rw [h2], h1, h3⟩))
    | _ => simp [CreateCall.isReturned] at hret
  refine ⟨hlen, inv.uniq, ?_, ?_, ?_⟩
  · intro c hc
    rcases hclass c hc with h | ⟨h1, h2, _⟩ | ⟨n, h1, h2, _⟩ | h
    · exact Or.inl h
    · exact Or.inr (Or.inl ⟨h1, h2⟩)
    · exact Or.inr (Or.inr (Or.inl ⟨n, h1, h2⟩))
    · exact Or.inr (Or.inr (Or.inr h))
  · intro hnone
    rcases inv.reg with h | ⟨n, i, ci, _, hi, hs⟩
    · exact h
    · have := hnone ci (List.getElem?_mem hi)
      rw [hs] at this
      exact absurd this (by simp)
  · intro hok
    -- the registry holds `x` at the end: look at the first call
    have hwin : ∃ (n : Node) (i : Nat) (ci : CreateCall),
        (createRace D d x K schedule).1.runningNodes = (x, n) :: d.runningNodes ∧
        (createRace D d x K schedule).2[i]? = some ci ∧ ci.succeeded = true := by
      rcases inv.reg with h | h
      · exfalso
        have h0 : 0 < (createRace D d x K schedule).2.length := by omega
        have hc0 := List.getElem_mem h0
        have hload : (createRace D d x K schedule).1.runningNodes.Load x = none := by
          rw [h]; exact hmiss
        rcases hclass _ hc0 with ⟨n, _, _, h3, _⟩ | ⟨_, _, h3⟩ | ⟨n, _, _, h3⟩ | ⟨e, w, w1, _, _, h1⟩
        · rw [h3, Registry.Load_cons_self] at hload
          exact absurd hload (by simp)
        · exact h3 hload
        · exact h3 hload
        · exact hok _ hc0 h1
      · exact h
    obtain ⟨n, i, ci, hr, hi, hs⟩ := hwin
    refine ⟨i, ci, hi, hs, ?_, ?_⟩
    · intro j cj hj hji
      rcases hclass cj (List.getElem?_mem hj) with ⟨m, h1, _⟩ | ⟨h1, _⟩ | ⟨m, h1, _⟩ |
        ⟨e, w, w1, _, _, h1⟩
      · exfalso
        apply hji
        refine inv.uniq j i cj ci hj hi ?_ hs
        simp [CreateCall.succeeded, h1]
      · exact h1
      · exact h1
      · exact absurd h1 (hok cj (List.getElem?_mem hj))
    · rw [hr]
      exact Registry.handles_cons_self _ _ _ hmiss

/-- C10 (amended) on the concrete world: two concurrent `CreateNode("x")`
calls that both pass the lookup before either registers: the first succeeds,
the second fails at the registration with "node already exists" and closes
the instance it built. -/
theorem concurrent_CreateNode_witness :
    (createRace simDeps simFresh "x" 2 [0, 1, 0, 1, 0, 1, 0, 1]).2.length = 2 ∧
    ∃ (i : Nat) (ci : CreateCall),
      (createRace simDeps simFresh "x" 2 [0, 1, 0, 1, 0, 1, 0, 1]).2[i]? = some ci ∧
      ci.succeeded = true ∧
      (∀ (j : Nat) (cj : CreateCall),
        (createRace simDeps simFresh "x" 2 [0, 1, 0, 1, 0, 1, 0, 1]).2[j]? = some cj → j ≠ i →
        cj.pc = .returned (.error (.errorf ("node already exists: " ++ "x")))) ∧
      (createRace simDeps simFresh "x" 2 [0, 1, 0, 1, 0, 1, 0, 1]).1.runningNodes.handles "x" = 1 :=
  ⟨(concurrent_CreateNode simDeps "x" simFresh 2 [0, 1, 0, 1, 0, 1, 0, 1] (fun _ _ => rfl)
      (simNewNode_nodeId "x") rfl rfl (by decide) (by decide)).1,
    (concurrent_CreateNode simDeps "x" simFresh 2 [0, 1, 0, 1, 0, 1, 0, 1] (fun _ _ => rfl)
      (simNewNode_nodeId "x") rfl rfl (by decide) (by decide)).2.2.2.2
      (by decide)⟩

/-! ## Every call returns -/

/-- A step of a call that has not returned brings it closer to its return. -/
theorem CreateNode.step_remaining {W : Type} (D : Deps W) (d : Daemon W) (c : CreateCall) :
    (CreateNode.step D d c).2.pc.remaining ≤ c.pc.remaining - 1 := by
  obtain ⟨req, pc, calls⟩ := c
  cases pc with
  | entry =>
    simp only [CreateNode.step]
    split
    · simp [CreatePc.remaining]
    · split <;> simp [CreatePc.remaining]
  | afterLoad =>
    simp only [CreateNode.step]
    split <;> simp [CreatePc.remaining]
  | afterNewNode n =>
    simp only [CreateNode.step]
    split <;> simp [CreatePc.remaining]
  | afterRegisterFail n err => simp [CreateNode.step, CreatePc.remaining]
  | returned res => simp [CreateNode.step, CreatePc.remaining]

/-- After a schedule, a call has at most as many steps left as it had, less
the number of times the schedule names it. -/
theorem runSchedule_remaining {W : Type} (D : Deps W) (i : Nat) (schedule : List Nat) :
    ∀ (cfg : Config W) (c1 : CreateCall), (runSchedule D cfg schedule).2[i]? = some c1 →
      ∃ c, cfg.2[i]? = some c ∧ c1.pc.remaining ≤ c.pc.remaining - schedule.count i := by
  induction schedule with
  | nil =>
    intro cfg c1 h
    exact ⟨c1, h, by simp⟩
  | cons j rest ih =>
    intro cfg c1 h
    obtain ⟨c2, hc2, hle⟩ := ih (stepAt D cfg j) c1 h
    unfold stepAt at hc2
    cases hj : cfg.2[j]? with
    | none =>
      rw [hj] at hc2
      refine ⟨c2, hc2, ?_⟩
      have hne : j ≠ i := by
        intro hji
        rw [hji] at hj
        simp only at hc2
        rw [hj] at hc2
        exact absurd hc2 (by simp)
      rw [List.count_cons_of_ne (Ne.symm hne)]
      exact hle
    | some cj =>
      rw [hj] at hc2
      simp only at hc2
      rw [List.getElem?_set] at hc2
      by_cases hji : j = i
      · have hlt : j < cfg.2.length := (List.getElem?_eq_some.mp hj).1
        rw [if_pos hji, if_pos hlt] at hc2
        refine ⟨cj, hji ▸ hj, ?_⟩
        have hstep := CreateNode.step_remaining D cfg.1 cj
        rw [Option.some.inj hc2] at hstep
        rw [hji, List.count_cons_self]
        omega
      · rw [if_neg hji] at hc2
        refine ⟨c2, hc2, ?_⟩
        rw [List.count_cons_of_ne (Ne.symm hji)]
        exact hle

/-- Every interleaving that gives each of the `K` calls at least four steps
leaves all calls returned. -/
theorem createRace_complete {W : Type} (D : Deps W) (d : Daemon W) (x : String) (K : Nat)
    (schedule : List Nat) (hfair : ∀ i < K, 4 ≤ schedule.count i) :
    ∀ c ∈ (createRace D d x K schedule).2, c.isReturned = true := by
  intro c hc
  obtain ⟨i, hi⟩ := List.mem_iff_getElem?.mp hc
  obtain ⟨c0, hc0, hle⟩ := runSchedule_remaining D i schedule _ c hi
  have hlt : i < K := by
    have := (List.getElem?_eq_some.mp hc0).1
    simpa using this
  have h0 : c0 = CreateCall.begin ⟨x⟩ := List.eq_of_mem_replicate (List.getElem?_mem hc0)
  have h4 := hfair i hlt
  rw [h0] at hle
  simp only [CreateCall.begin, CreatePc.remaining] at hle
  obtain ⟨req, pc, calls⟩ := c
  cases pc with
  | returned res => rfl
  | _ => simp [CreatePc.remaining] at hle; omega

/-- A fair schedule of two calls on the concrete world: all calls return. -/
theorem createRace_complete_witness :
    ∀ c ∈ (createRace simDeps simFresh "x" 2 [0, 1, 0, 1, 0, 1, 0, 1]).2, c.isReturned = true :=
  createRace_complete simDeps simFresh "x" 2 [0, 1, 0, 1, 0, 1, 0, 1] (by decide)

end P2pd
